import Mathlib

/-!
Verification of the sysmlv2_excel repository (a Flask server plus helper
module that resolves SysMLv2 feature values out of a remote element store).

The embedding models Python/JSON data as the inductive type `JVal`
(Python `None` is `JVal.null`), Python exceptions as `Except String`
(the string names the exception class), and the remote model server as a
`Store` of two pure oracles (`get` for `GET {url}/elements/{id}`, `post`
for query endpoints; `none` models a non-2xx response).  Operations that
may touch the network run in the monad `MRes`, which accumulates the list
of requested URLs next to an `Except` result, so that "no network activity
happened before the error" is the statement `log = []`.

Each `def` is a direct transliteration of the Python function of the same
name in `src/sysmlv2-api-server.py` or `src/sysmlv2_api_helpers.py`; the
source line numbers are given in each doc comment.
-/

namespace SysMLv2

/-- Model of a Python/JSON value as it occurs in this program: `null` is
Python `None`, `b`/`s`/`i` are scalars, `arr` a list, `obj` a dict
(association list; dict keys in this program are strings or `None`, so
keys are modelled as `JVal` too). -/
inductive JVal where
  | null
  | b (x : Bool)
  | s (x : String)
  | i (x : Int)
  | arr (xs : List JVal)
  | obj (fs : List (JVal × JVal))

mutual

/-- Structural boolean equality on `JVal` (deriving fails for this nested
inductive, so it is spelt out). -/
def beqJ : JVal → JVal → Bool
  | JVal.null, JVal.null => true
  | JVal.b x, JVal.b y => x == y
  | JVal.s x, JVal.s y => x == y
  | JVal.i x, JVal.i y => x == y
  | JVal.arr xs, JVal.arr ys => beqL xs ys
  | JVal.obj xs, JVal.obj ys => beqF xs ys
  | _, _ => false

/-- Boolean equality on lists of `JVal`. -/
def beqL : List JVal → List JVal → Bool
  | [], [] => true
  | x :: xs, y :: ys => beqJ x y && beqL xs ys
  | _, _ => false

/-- Boolean equality on dict entry lists. -/
def beqF : List (JVal × JVal) → List (JVal × JVal) → Bool
  | [], [] => true
  | (k1, v1) :: xs, (k2, v2) :: ys => beqJ k1 k2 && beqJ v1 v2 && beqF xs ys
  | _, _ => false

end

/-- The three boolean equalities decide propositional equality. -/
theorem beq_iff :
    (∀ a b, beqJ a b = true ↔ a = b) ∧ (∀ fs gs, beqF fs gs = true ↔ fs = gs) ∧
      (∀ xs ys, beqL xs ys = true ↔ xs = ys) := by
  refine beqJ.mutual_induct (fun a b => beqJ a b = true ↔ a = b)
    (fun a b => beqF a b = true ↔ a = b) (fun a b => beqL a b = true ↔ a = b)
    ?_ ?_ ?_ ?_ ?_ ?_ ?_ ?_ ?_ ?_ ?_ ?_ ?_
  · simp [beqJ]
  · intro x y; simp [beqJ]
  · intro x y; simp [beqJ]
  · intro x y; simp [beqJ]
  · intro xs ys ih; simpa [beqJ] using ih
  · intro xs ys ih; simpa [beqJ] using ih
  · intro t x h1 h2 h3 h4 h5 h6; cases t <;> cases x <;> simp_all [beqJ]
  · simp [beqL]
  · intro x xs y ys ih1 ih2; simp_all [beqL]
  · intro t x h1 h2
    cases t <;> cases x <;> simp_all [beqL]
    exact absurd rfl (h2 _ _ _ _ rfl rfl rfl)
  · simp [beqF]
  · intro k1 v1 xs k2 v2 ys ih1 ih2 ih3; simp_all [beqF]
  · intro t x h1 h2
    cases t <;> cases x <;> simp_all [beqF]
    rename_i p tl q tl2
    exact absurd rfl (h2 p.1 p.2 tl q.1 q.2 tl2 (by simp) rfl (by simp))

instance : DecidableEq JVal := fun a b => decidable_of_iff (beqJ a b = true) (beq_iff.1 a b)

/-- First-match lookup in a dict entry list (Python dicts have unique keys,
so first-match agrees with dict lookup). -/
def lookupKey : List (JVal × JVal) → JVal → Option JVal
  | [], _ => none
  | (k2, v) :: rest, k => if k2 = k then some v else lookupKey rest k

/-- Python truthiness (`bool(x)`) for the value shapes in this program. -/
def pyTruthy : JVal → Bool
  | JVal.null => false
  | JVal.b x => x
  | JVal.s x => decide (x ≠ "")
  | JVal.i n => decide (n ≠ 0)
  | JVal.arr xs => decide (xs ≠ [])
  | JVal.obj fs => decide (fs ≠ [])

@[simp] theorem pyTruthy_null : pyTruthy JVal.null = false := rfl

@[simp] theorem pyTruthy_b (x : Bool) : pyTruthy (JVal.b x) = x := rfl

@[simp] theorem pyTruthy_s (x : String) : pyTruthy (JVal.s x) = decide (x ≠ "") := rfl

@[simp] theorem pyTruthy_i (n : Int) : pyTruthy (JVal.i n) = decide (n ≠ 0) := rfl

@[simp] theorem pyTruthy_arr (xs : List JVal) : pyTruthy (JVal.arr xs) = decide (xs ≠ []) := rfl

@[simp] theorem pyTruthy_obj (fs : List (JVal × JVal)) :
    pyTruthy (JVal.obj fs) = decide (fs ≠ []) := rfl

/-- Python `str(x)` as used for f-string URL building.  Only the `null`
and string cases are ever exercised by the theorems below (request fields
are JSON strings or absent); the container cases are placeholders for the
container reprs, which no URL in this development depends on. -/
def pyStr : JVal → String
  | JVal.null => "None"
  | JVal.b true => "True"
  | JVal.b false => "False"
  | JVal.s x => x
  | JVal.i n => toString n
  | JVal.arr _ => "<list repr>"
  | JVal.obj _ => "<dict repr>"

/-- Character-list version of `str.startswith`: does `s` start with `p`?
(Spelt out on `List Char` so that it evaluates in the kernel.) -/
def listStarts : List Char → List Char → Bool
  | _, [] => true
  | [], _ :: _ => false
  | c :: cs, d :: ds => c = d && listStarts cs ds

/-- Python `s.startswith(p)`. -/
def pyStarts (s p : String) : Bool := listStarts s.data p.data

/-- Python `d.get(k)` (single-argument form): `None` when the key is
absent; raises `AttributeError` when the receiver is not a dict. -/
def JVal.getE (v k : JVal) : Except String JVal :=
  match v with
  | JVal.obj fs => Except.ok ((lookupKey fs k).getD JVal.null)
  | _ => Except.error "AttributeError"

/-- Python `d.get(k, dflt)`: the default when the key is absent; raises
`AttributeError` when the receiver is not a dict. -/
def JVal.getDE (v k dflt : JVal) : Except String JVal :=
  match v with
  | JVal.obj fs => Except.ok ((lookupKey fs k).getD dflt)
  | _ => Except.error "AttributeError"

/-- Python subscript `d[k]` with a string key: `KeyError` when absent,
`TypeError` when the receiver is not a dict. -/
def JVal.subE (v k : JVal) : Except String JVal :=
  match v with
  | JVal.obj fs =>
    match lookupKey fs k with
    | some x => Except.ok x
    | none => Except.error "KeyError"
  | _ => Except.error "TypeError"

/-- Python subscript `xs[0]`: `IndexError` on an empty list, an error on a
non-sequence receiver. -/
def JVal.sub0E (v : JVal) : Except String JVal :=
  match v with
  | JVal.arr [] => Except.error "IndexError"
  | JVal.arr (x :: _) => Except.ok x
  | _ => Except.error "TypeError"

/-- Transliteration of `ensure_dict` (`sysmlv2-api-server.py` lines
297-307): `while isinstance(obj, list): if not obj: return None; obj =
obj[0]` and finally `return obj if isinstance(obj, dict) else None`.
The Python `depth` variable only feeds the diagnostic print and does not
influence control flow, so it has no counterpart here. -/
def ensure_dict : JVal → JVal
  | JVal.arr [] => JVal.null
  | JVal.arr (x :: _) => ensure_dict x
  | JVal.obj fs => JVal.obj fs
  | JVal.null => JVal.null
  | JVal.b _ => JVal.null
  | JVal.s _ => JVal.null
  | JVal.i _ => JVal.null

/-- Wrapping of a value in `n` singleton lists, used to probe `ensure_dict`
at arbitrary nesting depth. -/
def nestArr : Nat → JVal → JVal
  | 0, v => v
  | n + 1, v => JVal.arr [nestArr n v]

/-- Unwrapping ignores any finite number of singleton-list wrappers. -/
theorem ensure_dict_nestArr (n : Nat) (v : JVal) :
    ensure_dict (nestArr n v) = ensure_dict v := by
  induction n with
  | zero => rfl
  | succ m ih => simpa [nestArr, ensure_dict] using ih

/-- Result of `ensure_dict` is always a dict or `None`. -/
theorem ensure_dict_shape (v : JVal) :
    ensure_dict v = JVal.null ∨ ∃ fs, ensure_dict v = JVal.obj fs := by
  induction v using ensure_dict.induct <;> simp_all [ensure_dict]

/-- Claim C2 (counterexample): there is no finite depth bound past which
more deeply nested input normalizes to `None` — a dict nested to any depth
still unwraps to the dict, because the `depth` counter in `ensure_dict` is
diagnostic only and never exhausts. -/
theorem claim_C2_counterexample :
    ¬ ∃ d : Nat, ∀ n : Nat, d < n →
      ensure_dict (nestArr n (JVal.obj [(JVal.s "a", JVal.i 1)])) = JVal.null := by
  rintro ⟨d, h⟩
  have h2 := h (d + 1) (Nat.lt_succ_self d)
  rw [ensure_dict_nestArr] at h2
  simp [ensure_dict] at h2

/-- Claim C2 (amended): `ensure_dict` unwraps nested sequences by
repeatedly taking the first element (the depth counter is incremented only
for diagnostics and never bounds the unwrapping); an empty sequence yields
`None`, a non-dict terminal yields `None`, and a dict nested inside any
finite number of singleton wrappers normalizes to that dict. -/
theorem claim_C2_amended :
    (∀ x xs, ensure_dict (JVal.arr (x :: xs)) = ensure_dict x) ∧
      ensure_dict (JVal.arr []) = JVal.null ∧
      (∀ x, ensure_dict (JVal.s x) = JVal.null) ∧
      ensure_dict JVal.null = JVal.null ∧
      (∀ n fs, ensure_dict (nestArr n (JVal.obj fs)) = JVal.obj fs) := by
  refine ⟨fun x xs => rfl, rfl, fun x => rfl, rfl, fun n fs => ?_⟩
  rw [ensure_dict_nestArr]; rfl

/-- Claim C8: the Graph Normalizer is idempotent — for every input shape,
`ensure_dict (ensure_dict x) = ensure_dict x`. -/
theorem claim_C8_idempotent (v : JVal) :
    ensure_dict (ensure_dict v) = ensure_dict v := by
  rcases ensure_dict_shape v with h | ⟨fs, h⟩ <;> rw [h] <;> rfl

/-- Computation that may raise a Python exception (`Except.error` names the
exception class) while recording every URL it requested from the server,
in request order.  "An error was raised before any network activity" is
the statement `log = []`. -/
structure MRes (α : Type) where
  log : List String
  res : Except String α

/-- Sequencing: an exception short-circuits, logs concatenate. -/
def MRes.bind {α β : Type} (m : MRes α) (f : α → MRes β) : MRes β :=
  match m with
  | ⟨l, Except.error e⟩ => ⟨l, Except.error e⟩
  | ⟨l, Except.ok a⟩ => ⟨l ++ (f a).log, (f a).res⟩

instance : Monad MRes where
  pure a := ⟨[], Except.ok a⟩
  bind := MRes.bind

/-- Raising an exception (no network activity of its own). -/
def throwM {α : Type} (e : String) : MRes α := ⟨[], Except.error e⟩

/-- Lifting a pure, non-networking Python expression. -/
def liftE {α : Type} (x : Except String α) : MRes α := ⟨[], x⟩

/-- Python `try ... except Exception: handler` around a computation. -/
def mCatch {α : Type} (m : MRes α) (h : String → MRes α) : MRes α :=
  match m with
  | ⟨l, Except.ok a⟩ => ⟨l, Except.ok a⟩
  | ⟨l, Except.error e⟩ => ⟨l ++ (h e).log, (h e).res⟩

theorem bind_eq_bind {α β : Type} (m : MRes α) (f : α → MRes β) :
    m >>= f = MRes.bind m f := rfl

@[simp] theorem bind_ok {α β : Type} (l : List String) (a : α) (f : α → MRes β) :
    MRes.bind ⟨l, Except.ok a⟩ f = ⟨l ++ (f a).log, (f a).res⟩ := rfl

@[simp] theorem bind_error {α β : Type} (l : List String) (e : String) (f : α → MRes β) :
    MRes.bind ⟨l, Except.error e⟩ f = ⟨l, Except.error e⟩ := rfl

@[simp] theorem pure_def {α : Type} (a : α) : (pure a : MRes α) = ⟨[], Except.ok a⟩ := rfl

@[simp] theorem liftE_ok {α : Type} (a : α) : liftE (Except.ok a) = ⟨[], Except.ok a⟩ := rfl

@[simp] theorem liftE_error {α : Type} (e : String) :
    (liftE (Except.error e) : MRes α) = ⟨[], Except.error e⟩ := rfl

@[simp] theorem except_bind_ok {α β : Type} (a : α) (f : α → Except String β) :
    (Except.ok a >>= f) = f a := rfl

@[simp] theorem except_bind_error {α β : Type} (e : String) (f : α → Except String β) :
    ((Except.error e : Except String α) >>= f) = Except.error e := rfl

instance {ε α : Type} [DecidableEq ε] [DecidableEq α] : DecidableEq (Except ε α)
  | Except.ok a, Except.ok b => decidable_of_iff (a = b) (by simp)
  | Except.error a, Except.error b => decidable_of_iff (a = b) (by simp)
  | Except.ok _, Except.error _ => isFalse (fun h => Except.noConfusion h)
  | Except.error _, Except.ok _ => isFalse (fun h => Except.noConfusion h)

/-- Remote model server: `get url` models `session.get(url)` (`none` is a
non-2xx status, `some v` a 200 with JSON body `v`); `post url payload`
models `session.post(url, json=payload)` the same way. -/
structure Store where
  get : String → Option JVal
  post : String → JVal → Option JVal

/-- URL built by `get_element_fromAPI`: `query_url + "/elements/" + id`. -/
def elementUrl (query_url eid : String) : String := query_url ++ "/elements/" ++ eid

/-- Return value of `get_element_fromAPI` (`sysmlv2_api_helpers.py` lines
274-289): on a non-string id the URL concatenation raises `TypeError`,
which the function's own `except` swallows, returning `None` with no
request made; on a non-2xx status it returns `None`; on a 200 whose body
is a list it returns the first element (`None` if empty); otherwise the
body itself. -/
def fetchVal (st : Store) (query_url : String) (element_id : JVal) : JVal :=
  match element_id with
  | JVal.s eid =>
    match st.get (elementUrl query_url eid) with
    | none => JVal.null
    | some (JVal.arr []) => JVal.null
    | some (JVal.arr (x :: _)) => x
    | some v => v
  | _ => JVal.null

/-- URLs requested by one `get_element_fromAPI` call: exactly one GET when
the id is a string, none otherwise (the `TypeError` in the string
concatenation happens before `session.get`). -/
def fetchLog (query_url : String) (element_id : JVal) : List String :=
  match element_id with
  | JVal.s eid => [elementUrl query_url eid]
  | _ => []

/-- Transliteration of `get_element_fromAPI` (`sysmlv2_api_helpers.py`
lines 274-289).  All failure modes are handled inside the function, so it
never raises: its result is always `Except.ok`. -/
def get_element_fromAPI (st : Store) (query_url : String) (element_id : JVal) : MRes JVal :=
  ⟨fetchLog query_url element_id, Except.ok (fetchVal st query_url element_id)⟩

/-- Claim C7: for every commit scope and element identity,
`get_element_fromAPI` never raises to the caller (its result is always a
normal return); it returns `None` on a non-success status; on success it
returns the parsed body, except that a list body yields the list's first
element, or `None` when the list is empty. -/
theorem claim_C7_element_fetcher (st : Store) (query_url eid : String) :
    (get_element_fromAPI st query_url (JVal.s eid)).res =
        Except.ok (fetchVal st query_url (JVal.s eid)) ∧
      (st.get (elementUrl query_url eid) = none →
        fetchVal st query_url (JVal.s eid) = JVal.null) ∧
      (st.get (elementUrl query_url eid) = some (JVal.arr []) →
        fetchVal st query_url (JVal.s eid) = JVal.null) ∧
      (∀ x xs, st.get (elementUrl query_url eid) = some (JVal.arr (x :: xs)) →
        fetchVal st query_url (JVal.s eid) = x) ∧
      (∀ v, st.get (elementUrl query_url eid) = some v → (∀ xs, v ≠ JVal.arr xs) →
        fetchVal st query_url (JVal.s eid) = v) := by
  refine ⟨rfl, ?_, ?_, ?_, ?_⟩
  · intro h; simp [fetchVal, h]
  · intro h; simp [fetchVal, h]
  · intro x xs h; simp [fetchVal, h]
  · intro v h hv
    cases v <;> simp [fetchVal, h]
    exact absurd rfl (hv _)

/-- Claim C7 witness: a concrete store whose body is a singleton list —
the fetch returns the wrapped element. -/
theorem claim_C7_witness :
    fetchVal
        ⟨fun u => if u = "S/projects/p/commits/c/elements/e1"
            then some (JVal.arr [JVal.obj [(JVal.s "@id", JVal.s "e1")]]) else none,
          fun _ _ => none⟩
        "S/projects/p/commits/c" (JVal.s "e1") =
      JVal.obj [(JVal.s "@id", JVal.s "e1")] := by
  exact (claim_C7_element_fetcher _ "S/projects/p/commits/c" "e1").2.2.2.1
    (JVal.obj [(JVal.s "@id", JVal.s "e1")]) [] (by simp [elementUrl])

/-- Body of the matched branch inside `getValueFromOperatorExpressionUnit`
(`sysmlv2_api_helpers.py` lines 324-326): fetch the relationship's
`memberElement`, take that feature's first owned relationship, fetch it,
and fetch the element its own `memberElement` references. -/
def opExpDecode (st : Store) (query_url : String) (relationship : JVal) : MRes JVal := do
  let me ← liftE (relationship.subE (JVal.s "memberElement"))
  let meId ← liftE (me.subE (JVal.s "@id"))
  let memberElement ← get_element_fromAPI st query_url meId
  let orels ← liftE (memberElement.subE (JVal.s "ownedRelationship"))
  let first ← liftE orels.sub0E
  let fid ← liftE (first.subE (JVal.s "@id"))
  let featureValue ← get_element_fromAPI st query_url fid
  let fme ← liftE (featureValue.subE (JVal.s "memberElement"))
  let fmeId ← liftE (fme.subE (JVal.s "@id"))
  get_element_fromAPI st query_url fmeId

/-- The `for relationship_id in opExp.get("ownedRelationship")` loop of
`getValueFromOperatorExpressionUnit` (`sysmlv2_api_helpers.py` lines
321-327): fetch each relationship, and on the first one whose `@type` is
`ParameterMembership` with `memberName == "x"` run the decode chain;
falling off the loop returns `None`. -/
def opExpLoop (st : Store) (query_url : String) : List JVal → MRes JVal
  | [] => pure JVal.null
  | rid :: rest => do
    let ridId ← liftE (rid.subE (JVal.s "@id"))
    let relationship ← get_element_fromAPI st query_url ridId
    let rtype ← liftE (relationship.getE (JVal.s "@type"))
    if rtype = JVal.s "ParameterMembership" then do
      let mname ← liftE (relationship.getE (JVal.s "memberName"))
      if mname = JVal.s "x" then opExpDecode st query_url relationship
      else opExpLoop st query_url rest
    else opExpLoop st query_url rest

/-- Transliteration of `getValueFromOperatorExpressionUnit`
(`sysmlv2_api_helpers.py` lines 319-327).  Iterating a non-list value of
`opExp.get("ownedRelationship")` is modelled as the `TypeError` Python
raises for `None`/dict iteration at the first subscript. -/
def getValueFromOperatorExpressionUnit (st : Store) (query_url : String) (opExp : JVal) :
    MRes JVal := do
  let rels ← liftE (opExp.getE (JVal.s "ownedRelationship"))
  match rels with
  | JVal.arr rs => opExpLoop st query_url rs
  | _ => throwM "TypeError"

/-- Commit-scope URL `f"{server_url}/projects/{project_id}/commits/{commit_id}"`
as built in `queryFeatureValue`, `writeFeatureValue`, `outputAttributesToCSV`
and `getFeatureValueFromFeature`. -/
def queryUrl3 (server_url project_id commit_id : JVal) : String :=
  pyStr server_url ++ "/projects/" ++ pyStr project_id ++ "/commits/" ++ pyStr commit_id

/-- The `for relationship_id in owned_rel` loop of
`getFeatureValueFromFeature` (`sysmlv2-api-server.py` lines 320-385),
including every `continue` guard of the source. -/
def gffLoop (st : Store) (query_url : String) : List JVal → MRes JVal
  | [] => pure JVal.null
  | rid0 :: rest => do
    let rid := ensure_dict rid0
    if pyTruthy rid = false then gffLoop st query_url rest
    else do
      let rel_id ← liftE (rid.getE (JVal.s "@id"))
      if pyTruthy rel_id = false then gffLoop st query_url rest
      else do
        let rel0 ← get_element_fromAPI st query_url rel_id
        let relationship := ensure_dict rel0
        if pyTruthy relationship = false then gffLoop st query_url rest
        else do
          let rel_type ← liftE (relationship.getE (JVal.s "@type"))
          if rel_type = JVal.s "FeatureValue" then do
            let related ← liftE (relationship.getDE (JVal.s "ownedRelatedElement") (JVal.arr []))
            if pyTruthy related = false then gffLoop st query_url rest
            else do
              let first0 ← liftE related.sub0E
              let first := ensure_dict first0
              if pyTruthy first = false then gffLoop st query_url rest
              else do
                let related_id ← liftE (first.getE (JVal.s "@id"))
                if pyTruthy related_id = false then gffLoop st query_url rest
                else do
                  let fv0 ← get_element_fromAPI st query_url related_id
                  let featureValue := ensure_dict fv0
                  if pyTruthy featureValue = false then gffLoop st query_url rest
                  else do
                    let fv_type ← liftE (featureValue.getE (JVal.s "@type"))
                    if pyTruthy fv_type = false then gffLoop st query_url rest
                    else
                      match fv_type with
                      | JVal.s ts =>
                        if pyStarts ts "Literal" then do
                          let vid ← liftE (featureValue.getE (JVal.s "@id"))
                          let vv ← liftE (featureValue.getE (JVal.s "value"))
                          pure (JVal.obj [(JVal.s "value_id", vid), (JVal.s "value", vv)])
                        else if ts = "OperatorExpression" then do
                          let value ← getValueFromOperatorExpressionUnit st query_url featureValue
                          let vid ← liftE (value.getE (JVal.s "@id"))
                          let vv ← liftE (value.getE (JVal.s "value"))
                          pure (JVal.obj [(JVal.s "value_id", vid), (JVal.s "value", vv)])
                        else gffLoop st query_url rest
                      | _ => throwM "AttributeError"
          else gffLoop st query_url rest

/-- Body of the `try` block of `getFeatureValueFromFeature`
(`sysmlv2-api-server.py` lines 312-385): fetch and normalize the feature,
return `None` when it is not a truthy dict, else walk its
`ownedRelationship` list. -/
def gffBody (st : Store) (query_url : String) (feature_id : JVal) : MRes JVal := do
  let f0 ← get_element_fromAPI st query_url feature_id
  let feature := ensure_dict f0
  if pyTruthy feature = false then pure JVal.null
  else do
    let owned_rel ← liftE (feature.getDE (JVal.s "ownedRelationship") (JVal.arr []))
    match owned_rel with
    | JVal.arr rids => gffLoop st query_url rids
    | _ => throwM "TypeError"

/-- Transliteration of `getFeatureValueFromFeature`
(`sysmlv2-api-server.py` lines 310-392): the whole body is wrapped in
`try ... except Exception: return None`. -/
def getFeatureValueFromFeature (st : Store)
    (server_url project_id commit_id feature_id : JVal) : MRes JVal :=
  mCatch (gffBody st (queryUrl3 server_url project_id commit_id) feature_id)
    (fun _ => pure JVal.null)

/-- Transliteration of the `queryFeatureValue` endpoint body
(`sysmlv2-api-server.py` lines 126-144).  The local `value` is modelled as
`Option JVal` (`none` = still unbound); using it unbound raises the
`UnboundLocalError` Python raises at the final f-string. -/
def queryFeatureValue (st : Store)
    (server_url project_id commit_id element_id : JVal) : MRes String := do
  let query_url := queryUrl3 server_url project_id commit_id
  let featureValue ← get_element_fromAPI st query_url element_id
  let t ← liftE (featureValue.getE (JVal.s "@type"))
  let value : Option JVal ←
    match t with
    | JVal.s ts =>
      if pyStarts ts "Literal" then do
        let v ← liftE (featureValue.getDE (JVal.s "value") (JVal.s ""))
        pure (some v)
      else if ts = "OperatorExpression" then do
        let v ← getValueFromOperatorExpressionUnit st query_url featureValue
        pure (some v)
      else pure none
    | _ => throwM "AttributeError"
  let ownerRef ← liftE (featureValue.getE (JVal.s "owner"))
  let ownerId ← liftE (ownerRef.getE (JVal.s "@id"))
  let owner ← get_element_fromAPI st query_url ownerId
  let ownerName ← liftE (owner.getDE (JVal.s "name") (JVal.s "Unknown Owner"))
  match value with
  | none => throwM "UnboundLocalError"
  | some v => pure (pyStr ownerName ++ "=" ++ pyStr v)

/-- Sample element documents for the concrete witness store.  `demoB` is
the commit scope `queryUrl3 "S" "p" "c"`. -/
def demoB : String := "S/projects/p/commits/c"

/-- Feature `f1`: one `Redefinition` relationship followed by one
`FeatureValue` relationship pointing at `LiteralInteger` 42. -/
def demoElems : List (String × JVal) :=
  [("f1", JVal.obj [(JVal.s "@id", JVal.s "f1"),
      (JVal.s "ownedRelationship", JVal.arr
        [JVal.obj [(JVal.s "@id", JVal.s "r0")], JVal.obj [(JVal.s "@id", JVal.s "r1")]])]),
   ("r0", JVal.obj [(JVal.s "@type", JVal.s "Redefinition"), (JVal.s "@id", JVal.s "r0")]),
   ("r1", JVal.obj [(JVal.s "@type", JVal.s "FeatureValue"),
      (JVal.s "ownedRelatedElement", JVal.arr [JVal.obj [(JVal.s "@id", JVal.s "v1")]])]),
   ("v1", JVal.obj [(JVal.s "@type", JVal.s "LiteralInteger"), (JVal.s "@id", JVal.s "v1"),
      (JVal.s "value", JVal.i 42)]),
   ("f2", JVal.obj [(JVal.s "@id", JVal.s "f2"),
      (JVal.s "ownedRelationship", JVal.arr [JVal.obj [(JVal.s "@id", JVal.s "r0")]])]),
   ("op1", JVal.obj [(JVal.s "@type", JVal.s "OperatorExpression"), (JVal.s "@id", JVal.s "op1"),
      (JVal.s "ownedRelationship", JVal.arr
        [JVal.obj [(JVal.s "@id", JVal.s "m0")], JVal.obj [(JVal.s "@id", JVal.s "m1")]])]),
   ("m0", JVal.obj [(JVal.s "@type", JVal.s "ParameterMembership"),
      (JVal.s "memberName", JVal.s "result")]),
   ("m1", JVal.obj [(JVal.s "@type", JVal.s "ParameterMembership"),
      (JVal.s "memberName", JVal.s "x"),
      (JVal.s "memberElement", JVal.obj [(JVal.s "@id", JVal.s "par1")])]),
   ("par1", JVal.obj [(JVal.s "ownedRelationship",
      JVal.arr [JVal.obj [(JVal.s "@id", JVal.s "pr1")]])]),
   ("pr1", JVal.obj [(JVal.s "memberElement", JVal.obj [(JVal.s "@id", JVal.s "v2")])]),
   ("v2", JVal.obj [(JVal.s "@type", JVal.s "LiteralString"), (JVal.s "@id", JVal.s "v2"),
      (JVal.s "value", JVal.s "ok")]),
   ("e9", JVal.obj [(JVal.s "@type", JVal.s "AttributeUsage"), (JVal.s "@id", JVal.s "e9"),
      (JVal.s "owner", JVal.obj [(JVal.s "@id", JVal.s "o1")]),
      (JVal.s "name", JVal.s "attr9")]),
   ("o1", JVal.obj [(JVal.s "name", JVal.s "own1"),
      (JVal.s "declaredName", JVal.s "Owner One")])]

/-- Lookup of a GET URL in the demo element table. -/
def demoLookup : List (String × JVal) → String → Option JVal
  | [], _ => none
  | (eid, v) :: rest, u => if u = demoB ++ "/elements/" ++ eid then some v else demoLookup rest u

/-- One `MetadataUsage` document annotating element `e5` with metadata
definition `id1`. -/
def demoUsage : JVal :=
  JVal.obj [(JVal.s "@id", JVal.s "u1"),
    (JVal.s "metadataDefinition", JVal.obj [(JVal.s "@id", JVal.s "id1")]),
    (JVal.s "annotatedElement", JVal.arr
      [JVal.obj [(JVal.s "@id", JVal.s "e5"), (JVal.s "name", JVal.s "E5")]])]

/-- Concrete store used by the witnesses: the element documents above, and
a query endpoint that answers every POST with the single usage document. -/
def demoStore : Store :=
  ⟨demoLookup demoElems, fun _ _ => some (JVal.arr [demoUsage])⟩

/-- Decidable description of a loop iteration of `getFeatureValueFromFeature`
that falls through to the next relationship without returning and without
raising: the relationship stub or the fetched relationship fails a guard,
or the relationship's `@type` is not `FeatureValue`. -/
def relSkips (st : Store) (query_url : String) (r : JVal) : Bool :=
  match ensure_dict r with
  | JVal.obj rfs =>
    if rfs = [] then true
    else
      match (lookupKey rfs (JVal.s "@id")).getD JVal.null with
      | rel_id =>
        if pyTruthy rel_id = false then true
        else
          match ensure_dict (fetchVal st query_url rel_id) with
          | JVal.obj gfs =>
            if gfs = [] then true
            else decide ((lookupKey gfs (JVal.s "@type")).getD JVal.null ≠ JVal.s "FeatureValue")
          | _ => true
  | _ => true

/-- A skipped relationship leaves the loop result unchanged (the fetch it
may perform only extends the log). -/
theorem gffLoop_cons_skip (st : Store) (q : String) (r : JVal) (rest : List JVal)
    (h : relSkips st q r = true) :
    (gffLoop st q (r :: rest)).res = (gffLoop st q rest).res := by
  unfold relSkips at h
  simp only [gffLoop]
  cases hr : ensure_dict r with
  | null => simp [bind_eq_bind]
  | b x =>
    rcases ensure_dict_shape r with hs | ⟨fs, hs⟩ <;> rw [hs] at hr <;> exact JVal.noConfusion hr
  | s x =>
    rcases ensure_dict_shape r with hs | ⟨fs, hs⟩ <;> rw [hs] at hr <;> exact JVal.noConfusion hr
  | i n =>
    rcases ensure_dict_shape r with hs | ⟨fs, hs⟩ <;> rw [hs] at hr <;> exact JVal.noConfusion hr
  | arr xs =>
    rcases ensure_dict_shape r with hs | ⟨fs, hs⟩ <;> rw [hs] at hr <;> exact JVal.noConfusion hr
  | obj rfs =>
    rw [hr] at h
    by_cases hfs : rfs = []
    · subst hfs
      simp [bind_eq_bind]
    · simp only [if_neg hfs] at h
      by_cases hid : pyTruthy ((lookupKey rfs (JVal.s "@id")).getD JVal.null) = false
      · simp [hfs, hid, bind_eq_bind, JVal.getE]
      · simp only [if_neg hid] at h
        cases hg : ensure_dict (fetchVal st q ((lookupKey rfs (JVal.s "@id")).getD JVal.null)) with
        | null =>
          simp [hfs, hid, bind_eq_bind, JVal.getE, get_element_fromAPI, hg]
        | b x =>
          rcases ensure_dict_shape (fetchVal st q ((lookupKey rfs (JVal.s "@id")).getD JVal.null))
            with hs | ⟨fs, hs⟩ <;> rw [hs] at hg <;> exact JVal.noConfusion hg
        | s x =>
          rcases ensure_dict_shape (fetchVal st q ((lookupKey rfs (JVal.s "@id")).getD JVal.null))
            with hs | ⟨fs, hs⟩ <;> rw [hs] at hg <;> exact JVal.noConfusion hg
        | i n =>
          rcases ensure_dict_shape (fetchVal st q ((lookupKey rfs (JVal.s "@id")).getD JVal.null))
            with hs | ⟨fs, hs⟩ <;> rw [hs] at hg <;> exact JVal.noConfusion hg
        | arr xs =>
          rcases ensure_dict_shape (fetchVal st q ((lookupKey rfs (JVal.s "@id")).getD JVal.null))
            with hs | ⟨fs, hs⟩ <;> rw [hs] at hg <;> exact JVal.noConfusion hg
        | obj gfs =>
          rw [hg] at h
          by_cases hgfs : gfs = []
          · subst hgfs
            simp [hfs, hid, bind_eq_bind, JVal.getE, get_element_fromAPI, hg]
          · simp only [if_neg hgfs, decide_eq_true_eq] at h
            simp [hfs, hgfs, hid, bind_eq_bind, JVal.getE, get_element_fromAPI, hg, h]

/-- A run of skipped relationships contributes nothing to the result. -/
theorem gffLoop_append_skips (st : Store) (q : String) (pre l : List JVal)
    (h : ∀ r ∈ pre, relSkips st q r = true) :
    (gffLoop st q (pre ++ l)).res = (gffLoop st q l).res := by
  induction pre with
  | nil => rfl
  | cons r rest ih =>
    have h1 : relSkips st q r = true := h r (List.mem_cons_self r rest)
    have h2 : ∀ x ∈ rest, relSkips st q x = true := fun x hx => h x (List.mem_cons_of_mem r hx)
    rw [List.cons_append, gffLoop_cons_skip st q r (rest ++ l) h1, ih h2]

/-- When every relationship of the list is skipped, the loop returns
`None` (the fall-through `return None` at line 392). -/
theorem gffLoop_all_skips (st : Store) (q : String) (rids : List JVal)
    (h : ∀ r ∈ rids, relSkips st q r = true) :
    (gffLoop st q rids).res = Except.ok JVal.null := by
  have := gffLoop_append_skips st q rids [] h
  simpa [gffLoop] using this

/-- Claim C4: `getFeatureValueFromFeature` never lets an exception escape
its boundary — for every store and feature identity, it returns normally
(first conjunct); and when the fetched feature is a dict none of whose
owned relationships decodes to a `FeatureValue` relationship (in
particular a feature with zero `FeatureValue` relationships), the value
returned is `None` (second conjunct). -/
theorem claim_C4_never_raises :
    (∀ (st : Store) (su p c fid : JVal),
      ∃ v, (getFeatureValueFromFeature st su p c fid).res = Except.ok v) ∧
    (∀ (st : Store) (su p c fid : JVal) (fs : List (JVal × JVal)) (rids : List JVal),
      ensure_dict (fetchVal st (queryUrl3 su p c) fid) = JVal.obj fs → fs ≠ [] →
      (lookupKey fs (JVal.s "ownedRelationship")).getD (JVal.arr []) = JVal.arr rids →
      (∀ r ∈ rids, relSkips st (queryUrl3 su p c) r = true) →
      (getFeatureValueFromFeature st su p c fid).res = Except.ok JVal.null) := by
  constructor
  · intro st su p c fid
    unfold getFeatureValueFromFeature mCatch
    cases hb : gffBody st (queryUrl3 su p c) fid with
    | mk l r =>
      cases r with
      | ok a => exact ⟨a, rfl⟩
      | error e => exact ⟨JVal.null, rfl⟩
  · intro st su p c fid fs rids hfd hfs hrel hskips
    have hbody : (gffBody st (queryUrl3 su p c) fid).res = Except.ok JVal.null := by
      unfold gffBody
      have htr : pyTruthy (JVal.obj fs) = true := by simp [pyTruthy, hfs]
      simp only [bind_eq_bind, get_element_fromAPI, bind_ok, hfd, htr, JVal.getDE,
        Bool.true_eq_false, if_false, liftE_ok, hrel]
      exact gffLoop_all_skips st (queryUrl3 su p c) rids hskips
    unfold getFeatureValueFromFeature mCatch
    cases hb : gffBody st (queryUrl3 su p c) fid with
    | mk l r =>
      rw [hb] at hbody
      simp only at hbody
      rw [hbody]

/-- Claim C4 witness: a concrete feature whose only owned relationship is
a `Redefinition` (zero `FeatureValue` relationships) resolves to `None`
without raising. -/
theorem claim_C4_witness :
    (getFeatureValueFromFeature demoStore (JVal.s "S") (JVal.s "p") (JVal.s "c")
        (JVal.s "f2")).res = Except.ok JVal.null :=
  claim_C4_never_raises.2 demoStore (JVal.s "S") (JVal.s "p") (JVal.s "c") (JVal.s "f2")
    [(JVal.s "@id", JVal.s "f2"),
      (JVal.s "ownedRelationship", JVal.arr [JVal.obj [(JVal.s "@id", JVal.s "r0")]])]
    [JVal.obj [(JVal.s "@id", JVal.s "r0")]]
    (by decide) (by decide) (by decide) (by decide)

/-- Catching preserves a normal return unchanged. -/
theorem mCatch_ok {α : Type} (m : MRes α) (h : String → MRes α) (a : α)
    (hm : m.res = Except.ok a) : (mCatch m h).res = Except.ok a := by
  cases m with
  | mk l r => cases r <;> simp_all [mCatch]

/-- A string starting with `Literal` is nonempty, hence truthy. -/
theorem pyStarts_Literal_ne_empty (vt : String) (h : pyStarts vt "Literal" = true) :
    vt ≠ "" := by
  intro he
  subst he
  exact absurd h (by decide)

/-- Claim C5: for a feature whose `FeatureValue` relationship (preceded by
any number of skipped relationships) has a first `ownedRelatedElement`
resolving to an element whose `@type` starts with `Literal`,
`getFeatureValueFromFeature` returns the pair
`{value_id: that element's @id, value: that element's "value" field}`. -/
theorem claim_C5_literal (st : Store) (su p c fid : JVal)
    (fs rfs relfs efs vfs : List (JVal × JVal)) (pre : List JVal) (rstub rid vid e0 : JVal)
    (es : List JVal) (vt : String)
    (h1 : ensure_dict (fetchVal st (queryUrl3 su p c) fid) = JVal.obj fs)
    (h2 : fs ≠ [])
    (h3 : (lookupKey fs (JVal.s "ownedRelationship")).getD (JVal.arr []) =
      JVal.arr (pre ++ [rstub]))
    (h4 : ∀ r ∈ pre, relSkips st (queryUrl3 su p c) r = true)
    (h5 : ensure_dict rstub = JVal.obj rfs)
    (h6 : rfs ≠ [])
    (h7 : (lookupKey rfs (JVal.s "@id")).getD JVal.null = rid)
    (h8 : pyTruthy rid = true)
    (h9 : ensure_dict (fetchVal st (queryUrl3 su p c) rid) = JVal.obj relfs)
    (h10 : relfs ≠ [])
    (h11 : (lookupKey relfs (JVal.s "@type")).getD JVal.null = JVal.s "FeatureValue")
    (h12 : (lookupKey relfs (JVal.s "ownedRelatedElement")).getD (JVal.arr []) =
      JVal.arr (e0 :: es))
    (h13 : ensure_dict e0 = JVal.obj efs)
    (h14 : efs ≠ [])
    (h15 : (lookupKey efs (JVal.s "@id")).getD JVal.null = vid)
    (h16 : pyTruthy vid = true)
    (h17 : ensure_dict (fetchVal st (queryUrl3 su p c) vid) = JVal.obj vfs)
    (h18 : vfs ≠ [])
    (h19 : (lookupKey vfs (JVal.s "@type")).getD JVal.null = JVal.s vt)
    (h20 : pyStarts vt "Literal" = true) :
    (getFeatureValueFromFeature st su p c fid).res =
      Except.ok (JVal.obj
        [(JVal.s "value_id", (lookupKey vfs (JVal.s "@id")).getD JVal.null),
          (JVal.s "value", (lookupKey vfs (JVal.s "value")).getD JVal.null)]) := by
  have hvt : vt ≠ "" := pyStarts_Literal_ne_empty vt h20
  apply mCatch_ok
  unfold gffBody
  simp only [bind_eq_bind, get_element_fromAPI, bind_ok, liftE_ok, h1, pyTruthy_obj,
    JVal.getDE, h3]
  rw [if_neg (by simp [h2])]
  show (gffLoop st (queryUrl3 su p c) (pre ++ [rstub])).res = _
  rw [gffLoop_append_skips st (queryUrl3 su p c) pre [rstub] h4]
  simp only [gffLoop]
  simp [bind_eq_bind, h5, h6, JVal.getE, h7, h8, get_element_fromAPI, h9, h10,
    JVal.getDE, h11, h12, JVal.sub0E, h13, h14, h15, h16, h17, h18, h19, h20, hvt]

/-- Claim C5 witness: feature `f1` of the demo store (one `Redefinition`
relationship, then one `FeatureValue` relationship whose target is a
`LiteralInteger` with value 42) resolves to
`{value_id: "v1", value: 42}`. -/
theorem claim_C5_witness :
    (getFeatureValueFromFeature demoStore (JVal.s "S") (JVal.s "p") (JVal.s "c")
        (JVal.s "f1")).res =
      Except.ok (JVal.obj [(JVal.s "value_id", JVal.s "v1"), (JVal.s "value", JVal.i 42)]) :=
  claim_C5_literal demoStore (JVal.s "S") (JVal.s "p") (JVal.s "c") (JVal.s "f1")
    [(JVal.s "@id", JVal.s "f1"),
      (JVal.s "ownedRelationship", JVal.arr
        [JVal.obj [(JVal.s "@id", JVal.s "r0")], JVal.obj [(JVal.s "@id", JVal.s "r1")]])]
    [(JVal.s "@id", JVal.s "r1")]
    [(JVal.s "@type", JVal.s "FeatureValue"),
      (JVal.s "ownedRelatedElement", JVal.arr [JVal.obj [(JVal.s "@id", JVal.s "v1")]])]
    [(JVal.s "@id", JVal.s "v1")]
    [(JVal.s "@type", JVal.s "LiteralInteger"), (JVal.s "@id", JVal.s "v1"),
      (JVal.s "value", JVal.i 42)]
    [JVal.obj [(JVal.s "@id", JVal.s "r0")]]
    (JVal.obj [(JVal.s "@id", JVal.s "r1")]) (JVal.s "r1") (JVal.s "v1")
    (JVal.obj [(JVal.s "@id", JVal.s "v1")]) [] "LiteralInteger"
    (by decide) (by decide) (by decide) (by decide) (by decide) (by decide) (by decide)
    (by decide) (by decide) (by decide) (by decide) (by decide) (by decide) (by decide)
    (by decide) (by decide) (by decide) (by decide) (by decide) (by decide)

/-- Decidable description of an iteration of the
`getValueFromOperatorExpressionUnit` loop that proceeds to the next
relationship without raising: the stub is a dict with an `@id`, the fetch
yields a dict, and it is not a `ParameterMembership` named `x`. -/
def pmxNonMatch (st : Store) (q : String) (r : JVal) : Bool :=
  match r with
  | JVal.obj rfs =>
    match lookupKey rfs (JVal.s "@id") with
    | some rid =>
      match fetchVal st q rid with
      | JVal.obj gfs =>
        if (lookupKey gfs (JVal.s "@type")).getD JVal.null = JVal.s "ParameterMembership" then
          decide ((lookupKey gfs (JVal.s "memberName")).getD JVal.null ≠ JVal.s "x")
        else true
      | _ => false
    | none => false
  | _ => false

/-- A non-matching relationship leaves the decoder loop result unchanged. -/
theorem opExpLoop_cons_skip (st : Store) (q : String) (r : JVal) (rest : List JVal)
    (h : pmxNonMatch st q r = true) :
    (opExpLoop st q (r :: rest)).res = (opExpLoop st q rest).res := by
  simp only [opExpLoop]
  cases r with
  | obj rfs =>
    cases hid : lookupKey rfs (JVal.s "@id") with
    | none => simp [pmxNonMatch, hid] at h
    | some rid =>
      cases hg : fetchVal st q rid with
      | obj gfs =>
        by_cases hpm : (lookupKey gfs (JVal.s "@type")).getD JVal.null =
            JVal.s "ParameterMembership"
        · have hx : (lookupKey gfs (JVal.s "memberName")).getD JVal.null ≠ JVal.s "x" := by
            simpa [pmxNonMatch, hid, hg, hpm] using h
          simp [bind_eq_bind, JVal.subE, hid, get_element_fromAPI, hg, JVal.getE, hpm, hx]
        · simp [bind_eq_bind, JVal.subE, hid, get_element_fromAPI, hg, JVal.getE, hpm]
      | null => simp [pmxNonMatch, hid, hg] at h
      | b x => simp [pmxNonMatch, hid, hg] at h
      | s x => simp [pmxNonMatch, hid, hg] at h
      | i n => simp [pmxNonMatch, hid, hg] at h
      | arr xs => simp [pmxNonMatch, hid, hg] at h
  | null => simp [pmxNonMatch] at h
  | b x => simp [pmxNonMatch] at h
  | s x => simp [pmxNonMatch] at h
  | i n => simp [pmxNonMatch] at h
  | arr xs => simp [pmxNonMatch] at h

/-- A run of non-matching relationships contributes nothing to the decode
loop result. -/
theorem opExpLoop_append_skips (st : Store) (q : String) (pre l : List JVal)
    (h : ∀ r ∈ pre, pmxNonMatch st q r = true) :
    (opExpLoop st q (pre ++ l)).res = (opExpLoop st q l).res := by
  induction pre with
  | nil => rfl
  | cons r rest ih =>
    have h1 : pmxNonMatch st q r = true := h r (List.mem_cons_self r rest)
    have h2 : ∀ x ∈ rest, pmxNonMatch st q x = true := fun x hx => h x (List.mem_cons_of_mem r hx)
    rw [List.cons_append, opExpLoop_cons_skip st q r (rest ++ l) h1, ih h2]

/-- Claim C6: `getValueFromOperatorExpressionUnit` enumerates
`ownedRelationship` in order; if no relationship is a
`ParameterMembership` whose `memberName` is `"x"`, it returns `None`
(first conjunct); otherwise, for the first such relationship it fetches
its `memberElement`, takes that feature's first owned relationship,
fetches it, fetches the element that relationship's `memberElement`
references, and returns that element (second conjunct). -/
theorem claim_C6_opexpr_decode (st : Store) (q : String) (opExp : JVal)
    (ofs : List (JVal × JVal)) (rs : List JVal)
    (hop : opExp = JVal.obj ofs)
    (hrels : (lookupKey ofs (JVal.s "ownedRelationship")).getD JVal.null = JVal.arr rs) :
    ((∀ r ∈ rs, pmxNonMatch st q r = true) →
      (getValueFromOperatorExpressionUnit st q opExp).res = Except.ok JVal.null) ∧
    (∀ (pre rest : List JVal) (rm : JVal)
      (rmfs gfs mefs memfs o0fs fvfs fmefs : List (JVal × JVal))
      (rmid mid oid xid o0 : JVal) (os : List JVal),
      rs = pre ++ rm :: rest →
      (∀ r ∈ pre, pmxNonMatch st q r = true) →
      rm = JVal.obj rmfs →
      lookupKey rmfs (JVal.s "@id") = some rmid →
      fetchVal st q rmid = JVal.obj gfs →
      (lookupKey gfs (JVal.s "@type")).getD JVal.null = JVal.s "ParameterMembership" →
      (lookupKey gfs (JVal.s "memberName")).getD JVal.null = JVal.s "x" →
      lookupKey gfs (JVal.s "memberElement") = some (JVal.obj mefs) →
      lookupKey mefs (JVal.s "@id") = some mid →
      fetchVal st q mid = JVal.obj memfs →
      lookupKey memfs (JVal.s "ownedRelationship") = some (JVal.arr (o0 :: os)) →
      o0 = JVal.obj o0fs →
      lookupKey o0fs (JVal.s "@id") = some oid →
      fetchVal st q oid = JVal.obj fvfs →
      lookupKey fvfs (JVal.s "memberElement") = some (JVal.obj fmefs) →
      lookupKey fmefs (JVal.s "@id") = some xid →
      (getValueFromOperatorExpressionUnit st q opExp).res = Except.ok (fetchVal st q xid)) := by
  constructor
  · intro hall
    unfold getValueFromOperatorExpressionUnit
    simp only [bind_eq_bind, hop, JVal.getE, liftE_ok, bind_ok, hrels]
    have := opExpLoop_append_skips st q rs [] hall
    simpa [opExpLoop] using this
  · intro pre rest rm rmfs gfs mefs memfs o0fs fvfs fmefs rmid mid oid xid o0 os
      hsplit hpre hrm hrmid hgfs htype hname hme hmid hmem horel ho0 hoid hfv hfme hxid
    unfold getValueFromOperatorExpressionUnit
    simp only [bind_eq_bind, hop, JVal.getE, liftE_ok, bind_ok, hrels, hsplit]
    show (opExpLoop st q (pre ++ rm :: rest)).res = _
    rw [opExpLoop_append_skips st q pre (rm :: rest) hpre]
    simp only [opExpLoop, opExpDecode]
    simp [bind_eq_bind, hrm, JVal.subE, hrmid, get_element_fromAPI, hgfs, JVal.getE,
      htype, hname, hme, hmid, hmem, horel, JVal.sub0E, ho0, hoid, hfv, hfme, hxid]

/-- Claim C6 witness: the demo operator expression `op1` (first a
`ParameterMembership` named `result`, then one named `x` whose chain ends
at the `LiteralString` `v2`) decodes to the `v2` element. -/
theorem claim_C6_witness :
    (getValueFromOperatorExpressionUnit demoStore demoB
        (JVal.obj [(JVal.s "@type", JVal.s "OperatorExpression"), (JVal.s "@id", JVal.s "op1"),
          (JVal.s "ownedRelationship", JVal.arr
            [JVal.obj [(JVal.s "@id", JVal.s "m0")],
              JVal.obj [(JVal.s "@id", JVal.s "m1")]])])).res =
      Except.ok (JVal.obj [(JVal.s "@type", JVal.s "LiteralString"), (JVal.s "@id", JVal.s "v2"),
        (JVal.s "value", JVal.s "ok")]) := by
  rw [(claim_C6_opexpr_decode demoStore demoB _
      [(JVal.s "@type", JVal.s "OperatorExpression"), (JVal.s "@id", JVal.s "op1"),
        (JVal.s "ownedRelationship", JVal.arr
          [JVal.obj [(JVal.s "@id", JVal.s "m0")], JVal.obj [(JVal.s "@id", JVal.s "m1")]])]
      [JVal.obj [(JVal.s "@id", JVal.s "m0")], JVal.obj [(JVal.s "@id", JVal.s "m1")]]
      rfl (by decide)).2
    [JVal.obj [(JVal.s "@id", JVal.s "m0")]] [] (JVal.obj [(JVal.s "@id", JVal.s "m1")])
    [(JVal.s "@id", JVal.s "m1")]
    [(JVal.s "@type", JVal.s "ParameterMembership"), (JVal.s "memberName", JVal.s "x"),
      (JVal.s "memberElement", JVal.obj [(JVal.s "@id", JVal.s "par1")])]
    [(JVal.s "@id", JVal.s "par1")]
    [(JVal.s "ownedRelationship", JVal.arr [JVal.obj [(JVal.s "@id", JVal.s "pr1")]])]
    [(JVal.s "@id", JVal.s "pr1")]
    [(JVal.s "memberElement", JVal.obj [(JVal.s "@id", JVal.s "v2")])]
    [(JVal.s "@id", JVal.s "v2")]
    (JVal.s "m1") (JVal.s "par1") (JVal.s "pr1") (JVal.s "v2")
    (JVal.obj [(JVal.s "@id", JVal.s "pr1")]) []
    (by decide) (by decide) (by decide) (by decide) (by decide) (by decide) (by decide)
    (by decide) (by decide) (by decide) (by decide) (by decide) (by decide) (by decide)
    (by decide) (by decide)]
  decide

/-- Claim C9: in `queryFeatureValue`, when the fetched element's `@type`
neither starts with `Literal` nor equals `OperatorExpression`, the local
`value` is never assigned, so the operation raises (an
`UnboundLocalError` at the result f-string, or an `AttributeError` on the
owner chain first) instead of returning a `name=value` string. -/
theorem claim_C9_unassigned_value (st : Store) (su p c eid : JVal)
    (fs : List (JVal × JVal)) (t : String)
    (h1 : fetchVal st (queryUrl3 su p c) eid = JVal.obj fs)
    (h2 : (lookupKey fs (JVal.s "@type")).getD JVal.null = JVal.s t)
    (h3 : pyStarts t "Literal" = false)
    (h4 : t ≠ "OperatorExpression") :
    ∃ e, (queryFeatureValue st su p c eid).res = Except.error e := by
  cases hor : (lookupKey fs (JVal.s "owner")).getD JVal.null with
  | obj ofs2 =>
    cases how : fetchVal st (queryUrl3 su p c) ((lookupKey ofs2 (JVal.s "@id")).getD JVal.null) with
    | obj wfs =>
      exact ⟨"UnboundLocalError", by
        unfold queryFeatureValue
        simp [bind_eq_bind, get_element_fromAPI, h1, JVal.getE, JVal.getDE, h2, h3, h4,
          hor, how, throwM]⟩
    | null =>
      exact ⟨"AttributeError", by
        unfold queryFeatureValue
        simp [bind_eq_bind, get_element_fromAPI, h1, JVal.getE, JVal.getDE, h2, h3, h4,
          hor, how, throwM]⟩
    | b x =>
      exact ⟨"AttributeError", by
        unfold queryFeatureValue
        simp [bind_eq_bind, get_element_fromAPI, h1, JVal.getE, JVal.getDE, h2, h3, h4,
          hor, how, throwM]⟩
    | s x =>
      exact ⟨"AttributeError", by
        unfold queryFeatureValue
        simp [bind_eq_bind, get_element_fromAPI, h1, JVal.getE, JVal.getDE, h2, h3, h4,
          hor, how, throwM]⟩
    | i n =>
      exact ⟨"AttributeError", by
        unfold queryFeatureValue
        simp [bind_eq_bind, get_element_fromAPI, h1, JVal.getE, JVal.getDE, h2, h3, h4,
          hor, how, throwM]⟩
    | arr xs =>
      exact ⟨"AttributeError", by
        unfold queryFeatureValue
        simp [bind_eq_bind, get_element_fromAPI, h1, JVal.getE, JVal.getDE, h2, h3, h4,
          hor, how, throwM]⟩
  | null =>
    exact ⟨"AttributeError", by
      unfold queryFeatureValue
      simp [bind_eq_bind, get_element_fromAPI, h1, JVal.getE, JVal.getDE, h2, h3, h4,
        hor, throwM]⟩
  | b x =>
    exact ⟨"AttributeError", by
      unfold queryFeatureValue
      simp [bind_eq_bind, get_element_fromAPI, h1, JVal.getE, JVal.getDE, h2, h3, h4,
        hor, throwM]⟩
  | s x =>
    exact ⟨"AttributeError", by
      unfold queryFeatureValue
      simp [bind_eq_bind, get_element_fromAPI, h1, JVal.getE, JVal.getDE, h2, h3, h4,
        hor, throwM]⟩
  | i n =>
    exact ⟨"AttributeError", by
      unfold queryFeatureValue
      simp [bind_eq_bind, get_element_fromAPI, h1, JVal.getE, JVal.getDE, h2, h3, h4,
        hor, throwM]⟩
  | arr xs =>
    exact ⟨"AttributeError", by
      unfold queryFeatureValue
      simp [bind_eq_bind, get_element_fromAPI, h1, JVal.getE, JVal.getDE, h2, h3, h4,
        hor, throwM]⟩

/-- Claim C9 witness: querying element `e9` of the demo store (an
`AttributeUsage`, neither a literal nor an operator expression) produces
an error, not a `name=value` string. -/
theorem claim_C9_witness :
    ∃ e, (queryFeatureValue demoStore (JVal.s "S") (JVal.s "p") (JVal.s "c")
        (JVal.s "e9")).res = Except.error e :=
  claim_C9_unassigned_value demoStore (JVal.s "S") (JVal.s "p") (JVal.s "c") (JVal.s "e9")
    [(JVal.s "@type", JVal.s "AttributeUsage"), (JVal.s "@id", JVal.s "e9"),
      (JVal.s "owner", JVal.obj [(JVal.s "@id", JVal.s "o1")]),
      (JVal.s "name", JVal.s "attr9")]
    "AttributeUsage" (by decide) (by decide) (by decide) (by decide)

/-- Query document POSTed by `get_metadata_ids_by_name`
(`sysmlv2_api_helpers.py` lines 68-79). -/
def metadataDefQuery : JVal :=
  JVal.obj [(JVal.s "@type", JVal.s "Query"), (JVal.s "name", JVal.s "string"),
    (JVal.s "select", JVal.arr [JVal.s "declaredName", JVal.s "declaredShortName",
      JVal.s "@id", JVal.s "@type", JVal.s "owner"]),
    (JVal.s "where", JVal.obj [(JVal.s "@type", JVal.s "PrimitiveConstraint"),
      (JVal.s "inverse", JVal.b false), (JVal.s "operator", JVal.s "="),
      (JVal.s "property", JVal.s "@type"),
      (JVal.s "value", JVal.arr [JVal.s "MetadataDefinition"])])]

/-- Query document POSTed by `get_metadatausage_annotatedElement_ids`
(`sysmlv2_api_helpers.py` lines 126-135). -/
def metadataUsageQuery : JVal :=
  JVal.obj [(JVal.s "@type", JVal.s "Query"),
    (JVal.s "where", JVal.obj [(JVal.s "@type", JVal.s "PrimitiveConstraint"),
      (JVal.s "inverse", JVal.b false), (JVal.s "operator", JVal.s "="),
      (JVal.s "property", JVal.s "@type"),
      (JVal.s "value", JVal.arr [JVal.s "MetadataUsage"])])]

/-- The generator `next((item['@id'] for item in resp if
item.get('declaredShortName') == shortName), None)` of
`get_metadata_ids_by_name` (line 91): first match wins, exhaustion gives
`None`, a non-dict item raises. -/
def findShortName : List JVal → JVal → Except String JVal
  | [], _ => Except.ok JVal.null
  | item :: rest, shortName => do
    let dsn ← item.getE (JVal.s "declaredShortName")
    if dsn = shortName then item.subE (JVal.s "@id")
    else findShortName rest shortName

/-- The `for shortName in metadata_shortnames` loop building `id_map`
(lines 89-95), keeping insertion order. -/
def idMapLoop (items : List JVal) : List JVal → Except String (List (JVal × JVal))
  | [] => Except.ok []
  | sn :: rest => do
    let mid ← findShortName items sn
    let m ← idMapLoop items rest
    Except.ok ((sn, mid) :: m)

/-- Transliteration of `get_metadata_ids_by_name` (`sysmlv2_api_helpers.py`
lines 64-114).  The function catches every exception itself and returns a
dict, so it never raises.  The human-readable `error`/`details` strings of
the failure dicts are abbreviated (the model does not carry response
bodies of failed requests); no theorem depends on their exact text. -/
def get_metadata_ids_by_name (st : Store) (query_url : String)
    (metadata_shortnames : List JVal) : MRes JVal :=
  match st.post query_url metadataDefQuery with
  | some body =>
    (match body with
     | JVal.arr items =>
       (match idMapLoop items metadata_shortnames with
        | Except.ok m => ⟨[query_url], Except.ok (JVal.obj m)⟩
        | Except.error e => ⟨[query_url], Except.ok (JVal.obj [(JVal.s "error", JVal.s e)])⟩)
     | _ => ⟨[query_url], Except.ok (JVal.obj [(JVal.s "error", JVal.s "Unexpected response format"),
         (JVal.s "details", body)])⟩)
  | none => ⟨[query_url], Except.ok (JVal.obj
      [(JVal.s "error", JVal.s "Failed to query metadata"), (JVal.s "details", JVal.s "")])⟩

/-- The diagnostic `for annotated in annotated_elements:
print(annotated.get('name'))` loop (lines 160-161): raises on a non-dict
entry, otherwise a no-op. -/
def diagNames : List JVal → Except String Unit
  | [] => Except.ok ()
  | a :: rest => do
    let _ ← a.getE (JVal.s "name")
    diagNames rest

/-- The `for annotated in annotated_elements` collection loop (lines
168-172): gather each entry's `@id` when truthy, raising on a non-dict
entry. -/
def annIds : List JVal → Except String (List JVal)
  | [] => Except.ok []
  | a :: rest => do
    let aid ← a.getE (JVal.s "@id")
    let more ← annIds rest
    Except.ok (if pyTruthy aid then aid :: more else more)

/-- Python `results[key].append(v)` on the results dict. -/
def appendAt (results : List (JVal × List JVal)) (key v : JVal) : List (JVal × List JVal) :=
  results.map (fun p => if p.1 = key then (p.1, p.2 ++ [v]) else p)

/-- Appending a batch of ids at a key. -/
def appendAllAt (results : List (JVal × List JVal)) (key : JVal) (vs : List JVal) :
    List (JVal × List JVal) :=
  results.map (fun p => if p.1 = key then (p.1, p.2 ++ vs) else p)

/-- The matched branch of `get_metadatausage_annotatedElement_ids` (lines
163-179): collect the `annotatedElement` ids (list or single dict shape),
or fall back to the usage's own `@id` when `annotatedElement` is absent
or falsy. -/
def collectAnnotated (item key : JVal) (results : List (JVal × List JVal)) :
    Except String (List (JVal × List JVal)) := do
  let ann ← item.getDE (JVal.s "annotatedElement") (JVal.arr [])
  if pyTruthy ann then
    match ann with
    | JVal.arr as => do
        let ids ← annIds as
        Except.ok (appendAllAt results key ids)
    | JVal.obj _ => do
        let aid ← ann.getE (JVal.s "@id")
        if pyTruthy aid then Except.ok (appendAt results key aid) else Except.ok results
    | _ => Except.ok results
  else do
    let iid ← item.getE (JVal.s "@id")
    Except.ok (appendAt results key iid)

/-- The `for key, metadefinition_id in metadefinition_dict.items()` loop
(lines 155-179), including the per-key diagnostic walk over
`annotatedElement` that precedes the match test. -/
def usageInner (item metadata_id : JVal) (results : List (JVal × List JVal)) :
    List (JVal × JVal) → Except String (List (JVal × List JVal))
  | [] => Except.ok results
  | (key, metadefinition_id) :: rest => do
    let ann ← item.getDE (JVal.s "annotatedElement") (JVal.arr [])
    let _ ← (if pyTruthy ann then
        match ann with
        | JVal.arr as => diagNames as
        | _ => Except.ok ()
      else Except.ok ())
    let results2 ← (if metadata_id = metadefinition_id then collectAnnotated item key results
      else Except.ok results)
    usageInner item metadata_id results2 rest

/-- The `for item in query_response_json` loop (lines 152-179). -/
def usageOuter (mdict : List (JVal × JVal)) :
    List JVal → List (JVal × List JVal) → Except String (List (JVal × List JVal))
  | [], results => Except.ok results
  | item :: rest, results => do
    let metadata ← item.getE (JVal.s "metadataDefinition")
    let metadata_id := (match metadata with
      | JVal.obj mfs => (lookupKey mfs (JVal.s "@id")).getD JVal.null
      | _ => JVal.s "Unknown")
    let results2 ← usageInner item metadata_id results mdict
    usageOuter mdict rest results2

/-- Packaging of the mutable `results` dict as a returned value. -/
def toResultObj (results : List (JVal × List JVal)) : JVal :=
  JVal.obj (results.map (fun p => (p.1, JVal.arr p.2)))

/-- Transliteration of `get_metadatausage_annotatedElement_ids`
(`sysmlv2_api_helpers.py` lines 120-181): POST the `MetadataUsage` query
(a non-2xx status raises `ValueError`); return `{}` when the body is
empty or not a list; otherwise initialise one empty list per key of
`metadefinition_dict` and fill it from the usage documents. -/
def get_metadatausage_annotatedElement_ids (st : Store) (query_url : String)
    (metadefinition_dict : JVal) : MRes JVal :=
  match st.post query_url metadataUsageQuery with
  | none => ⟨[query_url], Except.error "ValueError"⟩
  | some body =>
    if pyTruthy body = false then ⟨[query_url], Except.ok (JVal.obj [])⟩
    else
      match body with
      | JVal.arr items =>
        (match metadefinition_dict with
         | JVal.obj mdict =>
           (match usageOuter mdict items (mdict.map (fun p => (p.1, []))) with
            | Except.ok results => ⟨[query_url], Except.ok (toResultObj results)⟩
            | Except.error e => ⟨[query_url], Except.error e⟩)
         | _ => ⟨[query_url], Except.error "AttributeError"⟩)
      | _ => ⟨[query_url], Except.ok (JVal.obj [])⟩

/-- Query-scope URL
`f"{server_url}/projects/{project_id}/query-results?commitId={commit_id}"`
built in `getDomainFeatures` (line 97). -/
def queryResultsUrl (server_url project_id commit_id : JVal) : String :=
  pyStr server_url ++ "/projects/" ++ pyStr project_id ++ "/query-results?commitId=" ++
    pyStr commit_id

/-- The `for attr in element.get("ownedFeature", [])` collection (lines
108-113): a dict contributes its `@id` when present, a plain string
contributes itself, anything else is ignored. -/
def collectAttrIds : List JVal → List JVal
  | [] => []
  | attr :: rest =>
    match attr with
    | JVal.obj fs =>
      (match lookupKey fs (JVal.s "@id") with
       | some v => v :: collectAttrIds rest
       | none => collectAttrIds rest)
    | JVal.s x => JVal.s x :: collectAttrIds rest
    | _ => collectAttrIds rest

/-- The `for element in domainElements` loop of `getDomainFeatures`
(lines 106-113): the `element.get('name')` diagnostic raises on a
non-dict element, then the owned-feature ids are collected in order. -/
def ownedFeatureIds : List JVal → Except String (List JVal)
  | [] => Except.ok []
  | element :: rest => do
    let _ ← element.getE (JVal.s "name")
    let of0 ← element.getDE (JVal.s "ownedFeature") (JVal.arr [])
    let ids ← (match of0 with
      | JVal.arr attrs => Except.ok (collectAttrIds attrs)
      | _ => Except.error "TypeError")
    let more ← ownedFeatureIds rest
    Except.ok (ids ++ more)

/-- The `for element_id in element_ids` loop of `get_elements_fromAPI`
(`sysmlv2_api_helpers.py` lines 260-271): fetch each id (failures come
back as `None` and are appended as such), extending with list results. -/
def getElemsLoop (st : Store) (query_url : String) : List JVal → MRes (List JVal)
  | [] => pure []
  | eid :: rest => do
    let v ← get_element_fromAPI st query_url eid
    let more ← getElemsLoop st query_url rest
    match v with
    | JVal.arr xs => pure (xs ++ more)
    | _ => pure (v :: more)

/-- Transliteration of `get_elements_fromAPI` (`sysmlv2_api_helpers.py`
lines 259-271); iterating a non-list argument raises `TypeError`. -/
def get_elements_fromAPI (st : Store) (query_url : String) (idsJ : JVal) : MRes (List JVal) :=
  match idsJ with
  | JVal.arr ids => getElemsLoop st query_url ids
  | _ => throwM "TypeError"

/-- The CSV field list of `outputAttributesToCSV` (line 204). -/
def csvFields : List JVal :=
  [JVal.s "@id", JVal.s "type", JVal.s "name", JVal.s "value", JVal.s "value_id",
    JVal.s "owner"]

/-- Whether the Python csv module quotes a field (default QUOTE_MINIMAL:
a delimiter, quotechar, CR or LF in the value). -/
def csvNeedsQuote (x : String) : Bool :=
  x.data.any (fun c => c = ',' || c = '"' || c = '\r' || c = '\n')

/-- Doubling of quote characters inside a quoted field. -/
def csvEscape : List Char → List Char
  | [] => []
  | c :: rest => if c = '"' then '"' :: '"' :: csvEscape rest else c :: csvEscape rest

/-- Rendering of one CSV field value (QUOTE_MINIMAL). -/
def csvQuote (x : String) : String :=
  if csvNeedsQuote x then "\"" ++ String.mk (csvEscape x.data) ++ "\"" else x

/-- Conversion the csv writer applies to a cell: `None` becomes the empty
string, everything else goes through `str`. -/
def csvStr : JVal → String
  | JVal.null => ""
  | v => pyStr v

/-- One data row as written by `csv.DictWriter.writerow`: the row's
values in field order, quoted as needed, terminated by CRLF. -/
def renderRow (row : List (JVal × JVal)) : String :=
  String.intercalate "," (csvFields.map (fun f => csvQuote (csvStr ((lookupKey row f).getD JVal.null)))) ++ "\r\n"

/-- `csv.DictWriter.writerows`: each collected row in order — and nothing
else; in particular no header row of field names is ever written. -/
def renderRows (rows : List (List (JVal × JVal))) : String :=
  String.join (rows.map renderRow)

/-- Owner fetch of one `outputAttributesToCSV` iteration (lines 215-222):
only performed when `item["owner"]` is a dict; the inner `try` covers the
fetch and its diagnostic print, so the fetch result (possibly `None`) is
kept either way; a non-dict owner field leaves `owner = {}`. -/
def ownerFetch (st : Store) (query_url : String) (ownerField : JVal) : MRes JVal :=
  match ownerField with
  | JVal.obj offs => do
    let oid ← liftE ((JVal.obj offs).getDE (JVal.s "@id") (JVal.s ""))
    get_element_fromAPI st query_url oid
  | _ => pure (JVal.obj [])

/-- Row dict appended to `csv_elements` (lines 225-232); the `.get`
calls on `featureValue` and `owner` raise when those are not dicts (e.g.
`owner = None` after a failed fetch), which escapes to the outer handler
of `outputAttributesToCSV`. -/
def csvRowOf (item featureValue owner : JVal) : Except String (List (JVal × JVal)) := do
  let rid ← item.getDE (JVal.s "@id") (JVal.s "")
  let rtype ← item.getDE (JVal.s "@type") (JVal.s "")
  let rname ← item.getDE (JVal.s "name") (JVal.s "")
  let rvalue ← featureValue.getDE (JVal.s "value") (JVal.s "")
  let rvid ← featureValue.getDE (JVal.s "value_id") (JVal.s "")
  let rowner ← owner.getDE (JVal.s "declaredName") (JVal.s "")
  Except.ok [(JVal.s "@id", rid), (JVal.s "type", rtype), (JVal.s "name", rname),
    (JVal.s "value", rvalue), (JVal.s "value_id", rvid), (JVal.s "owner", rowner)]

/-- The `for item in elements` collection loop of `outputAttributesToCSV`
(`sysmlv2-api-server.py` lines 206-232): normalize, keep only truthy
dicts of `@type` `AttributeUsage`, fetch the owner, resolve the feature
value (`or {}` on a falsy result), and build the row dict. -/
def csvCollect (st : Store) (server_url project_id commit_id : JVal) :
    List JVal → MRes (List (List (JVal × JVal)))
  | [] => pure []
  | item0 :: rest => do
    let item := ensure_dict item0
    if pyTruthy item = false then csvCollect st server_url project_id commit_id rest
    else do
      let t ← liftE (item.getE (JVal.s "@type"))
      if t ≠ JVal.s "AttributeUsage" then csvCollect st server_url project_id commit_id rest
      else do
        let ownerField ← liftE (item.getE (JVal.s "owner"))
        let owner ← ownerFetch st (queryUrl3 server_url project_id commit_id) ownerField
        let iid ← liftE (item.getE (JVal.s "@id"))
        let fv0 ← getFeatureValueFromFeature st server_url project_id commit_id iid
        let featureValue := if pyTruthy fv0 then fv0 else JVal.obj []
        let row ← liftE (csvRowOf item featureValue owner)
        let more ← csvCollect st server_url project_id commit_id rest
        pure (row :: more)

/-- Result of a caller-facing operation that renders CSV: either the CSV
text, or the `jsonify({"error": ...}), 500` failure response. -/
inductive Resp where
  | csv (content : String)
  | failure

/-- Transliteration of `outputAttributesToCSV` (`sysmlv2-api-server.py`
lines 202-250): collect the rows, write them with `writer.writerows`
(no `writeheader` call anywhere), and turn any exception of the block
into the generic failure response. -/
def outputAttributesToCSV (st : Store) (server_url project_id commit_id : JVal)
    (elements : List JVal) : MRes Resp :=
  mCatch (do
      let rows ← csvCollect st server_url project_id commit_id elements
      pure (Resp.csv (renderRows rows)))
    (fun _ => pure Resp.failure)

/-- Transliteration of the `getDomainFeatures` endpoint body
(`sysmlv2-api-server.py` lines 83-119): read the request fields, raise
`ValueError` when `server_url`, `project_id` or `commit_id` is falsy
(before any request is issued), then run the metadata queries, gather the
domain elements and their owned features, and render the CSV. -/
def getDomainFeatures (st : Store)
    (server_url project_id commit_id domain_name attribute_name : JVal) : MRes Resp := do
  if !pyTruthy server_url || !pyTruthy project_id || !pyTruthy commit_id then
    throwM "ValueError"
  else do
    let query_url := queryResultsUrl server_url project_id commit_id
    let domainDefinitions ← get_metadata_ids_by_name st query_url [domain_name]
    let domainAnnotated ← get_metadatausage_annotatedElement_ids st query_url domainDefinitions
    let query_url2 := queryUrl3 server_url project_id commit_id
    let idsJ ← liftE (domainAnnotated.getDE domain_name (JVal.arr []))
    let domainElements ← get_elements_fromAPI st query_url2 idsJ
    let ofIds ← liftE (ownedFeatureIds domainElements)
    let features ← get_elements_fromAPI st query_url2 (JVal.arr ofIds)
    outputAttributesToCSV st server_url project_id commit_id features

/-- Claim C3 (counterexample): `queryFeatureValue` with a missing
`commit_id` (and the other identifiers present) issues a network request
— the GET for the element under the malformed `.../commits/None` scope —
before any error surfaces; no validation error is raised first.  The
request log is nonempty at the time the `AttributeError` is raised. -/
theorem claim_C3_counterexample :
    (queryFeatureValue demoStore (JVal.s "S") (JVal.s "p") JVal.null (JVal.s "e1")).log =
        ["S/projects/p/commits/None/elements/e1"] ∧
      (queryFeatureValue demoStore (JVal.s "S") (JVal.s "p") JVal.null (JVal.s "e1")).res =
        Except.error "AttributeError" :=
  ⟨by decide, by decide⟩

/-- Claim C3 (amended): `getDomainFeatures` raises immediately and
synchronously, before any network activity, when `server_url`,
`project_id` or `commit_id` is missing (first conjunct); but
`queryFeatureValue` performs no such validation — with a missing
`commit_id` it issues a network request first and only then fails
(second conjunct). -/
theorem claim_C3_validation :
    (∀ (st : Store) (su p c dn an : JVal),
      (!pyTruthy su || !pyTruthy p || !pyTruthy c) = true →
      getDomainFeatures st su p c dn an = ⟨[], Except.error "ValueError"⟩) ∧
    ((queryFeatureValue demoStore (JVal.s "S") (JVal.s "p") JVal.null (JVal.s "e1")).log ≠ [] ∧
      ∃ e, (queryFeatureValue demoStore (JVal.s "S") (JVal.s "p") JVal.null
        (JVal.s "e1")).res = Except.error e) := by
  refine ⟨fun st su p c dn an h => ?_, by decide, "AttributeError", by decide⟩
  simp [getDomainFeatures, h, throwM]

/-- Claim C3 witness: with a missing `server_url`, `getDomainFeatures`
raises `ValueError` with an empty request log. -/
theorem claim_C3_witness :
    getDomainFeatures demoStore JVal.null (JVal.s "p") (JVal.s "c") JVal.null JVal.null =
      ⟨[], Except.error "ValueError"⟩ :=
  claim_C3_validation.1 demoStore JVal.null (JVal.s "p") (JVal.s "c") JVal.null JVal.null
    (by decide)

/-- Shape condition under which processing one `MetadataUsage` document
cannot raise: the document is a dict, and when its `annotatedElement`
field is a list, every entry is a dict (both the diagnostic walk and the
collection walk call `.get` on each entry). -/
def annSafe (item : JVal) : Bool :=
  match item with
  | JVal.obj fs =>
    (match (lookupKey fs (JVal.s "annotatedElement")).getD (JVal.arr []) with
     | JVal.arr as => as.all (fun a => match a with | JVal.obj _ => true | _ => false)
     | _ => true)
  | _ => false

/-- Appending at a key does not change the key list. -/
theorem appendAt_keys (results : List (JVal × List JVal)) (key v : JVal) :
    (appendAt results key v).map Prod.fst = results.map Prod.fst := by
  induction results with
  | nil => rfl
  | cons p rest ih =>
    by_cases h : p.1 = key <;> simp [appendAt, h] <;> simpa [appendAt] using ih

/-- Appending a batch at a key does not change the key list. -/
theorem appendAllAt_keys (results : List (JVal × List JVal)) (key : JVal) (vs : List JVal) :
    (appendAllAt results key vs).map Prod.fst = results.map Prod.fst := by
  induction results with
  | nil => rfl
  | cons p rest ih =>
    by_cases h : p.1 = key <;> simp [appendAllAt, h] <;> simpa [appendAllAt] using ih

/-- The diagnostic name walk cannot raise over all-dict entries. -/
theorem diagNames_ok (as : List JVal)
    (h : as.all (fun a => match a with | JVal.obj _ => true | _ => false) = true) :
    diagNames as = Except.ok () := by
  induction as with
  | nil => rfl
  | cons a rest ih =>
    simp only [List.all_cons, Bool.and_eq_true] at h
    cases a with
    | obj afs =>
      simp only [diagNames, JVal.getE, except_bind_ok]
      exact ih h.2
    | null => simp at h
    | b x => simp at h
    | s x => simp at h
    | i n => simp at h
    | arr xs => simp at h

/-- The id collection walk cannot raise over all-dict entries. -/
theorem annIds_ok (as : List JVal)
    (h : as.all (fun a => match a with | JVal.obj _ => true | _ => false) = true) :
    ∃ ids, annIds as = Except.ok ids := by
  induction as with
  | nil => exact ⟨[], rfl⟩
  | cons a rest ih =>
    simp only [List.all_cons, Bool.and_eq_true] at h
    obtain ⟨ids, hids⟩ := ih h.2
    cases a with
    | obj afs =>
      simp only [annIds, JVal.getE, except_bind_ok, hids]
      exact ⟨_, rfl⟩
    | null => simp at h
    | b x => simp at h
    | s x => simp at h
    | i n => simp at h
    | arr xs => simp at h

/-- Collecting for one matched key neither raises nor changes the key
list of the results dict. -/
theorem collectAnnotated_ok (item key : JVal) (results : List (JVal × List JVal))
    (hsafe : annSafe item = true) :
    ∃ r2, collectAnnotated item key results = Except.ok r2 ∧
      r2.map Prod.fst = results.map Prod.fst := by
  obtain ⟨fs, hfs⟩ : ∃ fs, item = JVal.obj fs := by
    cases item <;> simp_all [annSafe]
  subst hfs
  simp only [annSafe] at hsafe
  unfold collectAnnotated
  simp only [JVal.getDE, except_bind_ok]
  cases hann : (lookupKey fs (JVal.s "annotatedElement")).getD (JVal.arr []) with
  | arr as =>
    rw [hann] at hsafe
    by_cases hne : as = []
    · subst hne
      exact ⟨appendAt results key ((lookupKey fs (JVal.s "@id")).getD JVal.null),
        by simp [JVal.getE], appendAt_keys results key _⟩
    · obtain ⟨ids, hids⟩ := annIds_ok as hsafe
      exact ⟨appendAllAt results key ids, by simp [hne, hids],
        appendAllAt_keys results key ids⟩
  | obj afs =>
    by_cases h0 : afs = []
    · subst h0
      exact ⟨appendAt results key ((lookupKey fs (JVal.s "@id")).getD JVal.null),
        by simp [JVal.getE], appendAt_keys results key _⟩
    · by_cases haid : pyTruthy ((lookupKey afs (JVal.s "@id")).getD JVal.null) = true
      · exact ⟨appendAt results key ((lookupKey afs (JVal.s "@id")).getD JVal.null),
          by simp [h0, JVal.getE, haid], appendAt_keys results key _⟩
      · exact ⟨results, by simp [h0, JVal.getE, haid], rfl⟩
  | null =>
    exact ⟨appendAt results key ((lookupKey fs (JVal.s "@id")).getD JVal.null),
      by simp [JVal.getE], appendAt_keys results key _⟩
  | b x =>
    cases x with
    | false =>
      exact ⟨appendAt results key ((lookupKey fs (JVal.s "@id")).getD JVal.null),
        by simp [JVal.getE], appendAt_keys results key _⟩
    | true => exact ⟨results, by simp, rfl⟩
  | s x =>
    by_cases hx : x = ""
    · subst hx
      exact ⟨appendAt results key ((lookupKey fs (JVal.s "@id")).getD JVal.null),
        by simp [JVal.getE], appendAt_keys results key _⟩
    · exact ⟨results, by simp [hx], rfl⟩
  | i n =>
    by_cases hn : n = 0
    · subst hn
      exact ⟨appendAt results key ((lookupKey fs (JVal.s "@id")).getD JVal.null),
        by simp [JVal.getE], appendAt_keys results key _⟩
    · exact ⟨results, by simp [hn], rfl⟩

/-- The inner key loop neither raises nor changes the key list. -/
theorem usageInner_ok (item metadata_id : JVal) (hsafe : annSafe item = true) :
    ∀ (mdict : List (JVal × JVal)) (results : List (JVal × List JVal)),
      ∃ r2, usageInner item metadata_id results mdict = Except.ok r2 ∧
        r2.map Prod.fst = results.map Prod.fst := by
  obtain ⟨fs, hfs⟩ : ∃ fs, item = JVal.obj fs := by
    cases item <;> simp_all [annSafe]
  subst hfs
  have hsafe2 := hsafe
  simp only [annSafe] at hsafe2
  intro mdict
  induction mdict with
  | nil => exact fun results => ⟨results, rfl, rfl⟩
  | cons kv rest ih =>
    intro results
    cases kv with
    | mk key mdid =>
      have step : ∀ r0 r1, (if metadata_id = mdid
            then collectAnnotated (JVal.obj fs) key r0 else Except.ok r0) = Except.ok r1 →
          r1.map Prod.fst = r0.map Prod.fst →
          ∃ r3, usageInner (JVal.obj fs) metadata_id r0 ((key, mdid) :: rest) = Except.ok r3 ∧
            r3.map Prod.fst = r0.map Prod.fst := by
        intro r0 r1 hc hk1
        obtain ⟨r3, hr3, hk3⟩ := ih r1
        refine ⟨r3, ?_, hk3.trans hk1⟩
        rw [usageInner]
        simp only [JVal.getDE, except_bind_ok]
        cases hann : (lookupKey fs (JVal.s "annotatedElement")).getD (JVal.arr []) with
        | arr as =>
          rw [hann] at hsafe2
          by_cases hne : as = []
          · subst hne; simp only at hc; simp [hc, hr3]
          · simp only at hc
            simp [hne, diagNames_ok as hsafe2, hc, hr3]
        | null => simp only at hc; simp [hc, hr3]
        | obj afs => simp only at hc; by_cases h0 : afs = [] <;> simp [h0, hc, hr3]
        | b x => simp only at hc; cases x <;> simp [hc, hr3]
        | s x => simp only at hc; by_cases hx : x = "" <;> simp [hx, hc, hr3]
        | i n => simp only at hc; by_cases hn : n = 0 <;> simp [hn, hc, hr3]
      by_cases hmatch : metadata_id = mdid
      · obtain ⟨r2, hr2, hk2⟩ := collectAnnotated_ok (JVal.obj fs) key results hsafe
        exact step results r2 (by rw [if_pos hmatch]; exact hr2) hk2
      · exact step results results (by rw [if_neg hmatch]) rfl

/-- The outer item loop neither raises nor changes the key list. -/
theorem usageOuter_ok (mdict : List (JVal × JVal)) (items : List JVal)
    (hsafe : ∀ item ∈ items, annSafe item = true) :
    ∀ results, ∃ r2, usageOuter mdict items results = Except.ok r2 ∧
      r2.map Prod.fst = results.map Prod.fst := by
  induction items with
  | nil => exact fun results => ⟨results, rfl, rfl⟩
  | cons item rest ih =>
    intro results
    have hsi : annSafe item = true := hsafe item (List.mem_cons_self item rest)
    have hsr : ∀ x ∈ rest, annSafe x = true := fun x hx => hsafe x (List.mem_cons_of_mem item hx)
    obtain ⟨fs, hfs⟩ : ∃ fs, item = JVal.obj fs := by
      cases item <;> simp_all [annSafe]
    subst hfs
    rw [usageOuter]
    simp only [JVal.getE, except_bind_ok]
    cases hmd : (lookupKey fs (JVal.s "metadataDefinition")).getD JVal.null with
    | obj mfs =>
      obtain ⟨r2, hr2, hk2⟩ := usageInner_ok (JVal.obj fs)
        ((lookupKey mfs (JVal.s "@id")).getD JVal.null) hsi mdict results
      obtain ⟨r3, hr3, hk3⟩ := ih hsr r2
      exact ⟨r3, by simp [hr2, hr3], hk3.trans hk2⟩
    | null =>
      obtain ⟨r2, hr2, hk2⟩ := usageInner_ok (JVal.obj fs) (JVal.s "Unknown") hsi mdict results
      obtain ⟨r3, hr3, hk3⟩ := ih hsr r2
      exact ⟨r3, by simp [hr2, hr3], hk3.trans hk2⟩
    | b x =>
      obtain ⟨r2, hr2, hk2⟩ := usageInner_ok (JVal.obj fs) (JVal.s "Unknown") hsi mdict results
      obtain ⟨r3, hr3, hk3⟩ := ih hsr r2
      exact ⟨r3, by simp [hr2, hr3], hk3.trans hk2⟩
    | s x =>
      obtain ⟨r2, hr2, hk2⟩ := usageInner_ok (JVal.obj fs) (JVal.s "Unknown") hsi mdict results
      obtain ⟨r3, hr3, hk3⟩ := ih hsr r2
      exact ⟨r3, by simp [hr2, hr3], hk3.trans hk2⟩
    | i n =>
      obtain ⟨r2, hr2, hk2⟩ := usageInner_ok (JVal.obj fs) (JVal.s "Unknown") hsi mdict results
      obtain ⟨r3, hr3, hk3⟩ := ih hsr r2
      exact ⟨r3, by simp [hr2, hr3], hk3.trans hk2⟩
    | arr xs =>
      obtain ⟨r2, hr2, hk2⟩ := usageInner_ok (JVal.obj fs) (JVal.s "Unknown") hsi mdict results
      obtain ⟨r3, hr3, hk3⟩ := ih hsr r2
      exact ⟨r3, by simp [hr2, hr3], hk3.trans hk2⟩

/-- Claim C1 (counterexample): when the `MetadataUsage` query returns an
empty list, `get_metadatausage_annotatedElement_ids` returns the empty
mapping — not a mapping with one entry per key of the input map. -/
theorem claim_C1_counterexample :
    ∃ m, (get_metadatausage_annotatedElement_ids ⟨fun _ => none, fun _ _ => some (JVal.arr [])⟩
        "Q" (JVal.obj [(JVal.s "Domain1", JVal.s "id1")])).res = Except.ok (JVal.obj m) ∧
      m.map Prod.fst ≠ [JVal.s "Domain1"] :=
  ⟨[], by decide, by decide⟩

/-- Claim C1 (amended): when the `MetadataUsage` query returns a
*non-empty list* whose items are well-shaped dicts,
`get_metadatausage_annotatedElement_ids` returns a mapping with exactly
one entry per key of the input map, in order, each value a (possibly
empty) sequence of identities; an empty or non-list response body instead
yields the empty mapping. -/
theorem claim_C1_one_entry_per_key (st : Store) (query_url : String)
    (mdict : List (JVal × JVal)) (items : List JVal)
    (hpost : st.post query_url metadataUsageQuery = some (JVal.arr items))
    (hne : items ≠ [])
    (hsafe : ∀ item ∈ items, annSafe item = true) :
    ∃ results, (get_metadatausage_annotatedElement_ids st query_url (JVal.obj mdict)).res =
        Except.ok (JVal.obj results) ∧
      results.map Prod.fst = mdict.map Prod.fst ∧
      ∀ p ∈ results, ∃ l, p.2 = JVal.arr l := by
  obtain ⟨r2, hr2, hk2⟩ := usageOuter_ok mdict items hsafe (mdict.map (fun p => (p.1, [])))
  refine ⟨r2.map (fun p => (p.1, JVal.arr p.2)), ?_, ?_, ?_⟩
  · unfold get_metadatausage_annotatedElement_ids
    rw [hpost]
    simp [hne, hr2, toResultObj]
  · rw [List.map_map]
    have : r2.map (Prod.fst ∘ fun p => (p.1, JVal.arr p.2)) = r2.map Prod.fst := rfl
    rw [this, hk2, List.map_map]
    rfl
  · intro p hp
    simp only [List.mem_map] at hp
    obtain ⟨q, _, hq⟩ := hp
    exact ⟨q.2, by rw [← hq]⟩

/-- Claim C1 witness: the demo store's usage query returns one usage
annotating `e5` with definition `id1`; for the input map
`{"Domain1": "id1"}` the result has exactly the entry
`{"Domain1": ["e5"]}`. -/
theorem claim_C1_witness :
    ∃ results, (get_metadatausage_annotatedElement_ids demoStore "Q"
        (JVal.obj [(JVal.s "Domain1", JVal.s "id1")])).res =
        Except.ok (JVal.obj results) ∧
      results.map Prod.fst = [JVal.s "Domain1"] ∧
      ∀ p ∈ results, ∃ l, p.2 = JVal.arr l := by
  obtain ⟨results, h1, h2, h3⟩ := claim_C1_one_entry_per_key demoStore "Q"
    [(JVal.s "Domain1", JVal.s "id1")] [demoUsage] (by decide) (by decide)
    (by decide)
  exact ⟨results, h1, h2, h3⟩

/-- The feature value resolver always returns normally (record form). -/
theorem gff_total (st : Store) (su p c fid : JVal) :
    ∃ l v, getFeatureValueFromFeature st su p c fid = ⟨l, Except.ok v⟩ := by
  unfold getFeatureValueFromFeature mCatch
  cases hb : gffBody st (queryUrl3 su p c) fid with
  | mk l r =>
    cases r with
    | ok a => exact ⟨l, a, rfl⟩
    | error e => exact ⟨l ++ [], JVal.null, rfl⟩

/-- The owner fetch always returns normally (record form). -/
theorem ownerFetch_ok (st : Store) (q : String) (v : JVal) :
    ∃ l w, ownerFetch st q v = ⟨l, Except.ok w⟩ := by
  cases v with
  | obj offs =>
    refine ⟨fetchLog q ((lookupKey offs (JVal.s "@id")).getD (JVal.s "")),
      fetchVal st q ((lookupKey offs (JVal.s "@id")).getD (JVal.s "")), ?_⟩
    simp [ownerFetch, JVal.getDE, bind_eq_bind, get_element_fromAPI]
  | null => exact ⟨[], JVal.obj [], rfl⟩
  | b x => exact ⟨[], JVal.obj [], rfl⟩
  | s x => exact ⟨[], JVal.obj [], rfl⟩
  | i n => exact ⟨[], JVal.obj [], rfl⟩
  | arr xs => exact ⟨[], JVal.obj [], rfl⟩

/-- A `getD JVal.null` result that is a string pins down the lookup. -/
theorem getD_null_string (o : Option JVal) (x : String)
    (h : o.getD JVal.null = JVal.s x) : o = some (JVal.s x) := by
  cases o with
  | none => exact absurd h (by simp)
  | some y => simpa using h

/-- A built row either fails (non-dict `featureValue` or `owner`) or is a
data row: its `type` column is the item's `@type` (here `AttributeUsage`)
and its keys are exactly the CSV field names — never the field names as
values. -/
theorem csvRowOf_shape (fs : List (JVal × JVal)) (f o : JVal)
    (ht : (lookupKey fs (JVal.s "@type")).getD JVal.null = JVal.s "AttributeUsage") :
    (∃ e, csvRowOf (JVal.obj fs) f o = Except.error e) ∨
    (∃ row, csvRowOf (JVal.obj fs) f o = Except.ok row ∧
      lookupKey row (JVal.s "type") = some (JVal.s "AttributeUsage") ∧
      row.map Prod.fst = csvFields) := by
  have ht2 : (lookupKey fs (JVal.s "@type")).getD (JVal.s "") = JVal.s "AttributeUsage" := by
    rw [getD_null_string _ _ ht]; rfl
  cases hf : f with
  | obj ffs =>
    cases ho : o with
    | obj ofs =>
      refine Or.inr ⟨[(JVal.s "@id", (lookupKey fs (JVal.s "@id")).getD (JVal.s "")),
        (JVal.s "type", (lookupKey fs (JVal.s "@type")).getD (JVal.s "")),
        (JVal.s "name", (lookupKey fs (JVal.s "name")).getD (JVal.s "")),
        (JVal.s "value", (lookupKey ffs (JVal.s "value")).getD (JVal.s "")),
        (JVal.s "value_id", (lookupKey ffs (JVal.s "value_id")).getD (JVal.s "")),
        (JVal.s "owner", (lookupKey ofs (JVal.s "declaredName")).getD (JVal.s ""))],
        ?_, ?_, ?_⟩
      · simp [csvRowOf, JVal.getDE]
      · simp only [lookupKey]
        simp [ht2]
      · simp [csvFields]
    | null => exact Or.inl ⟨"AttributeError", by simp [csvRowOf, JVal.getDE]⟩
    | b x => exact Or.inl ⟨"AttributeError", by simp [csvRowOf, JVal.getDE]⟩
    | s x => exact Or.inl ⟨"AttributeError", by simp [csvRowOf, JVal.getDE]⟩
    | i n => exact Or.inl ⟨"AttributeError", by simp [csvRowOf, JVal.getDE]⟩
    | arr xs => exact Or.inl ⟨"AttributeError", by simp [csvRowOf, JVal.getDE]⟩
  | null => exact Or.inl ⟨"AttributeError", by simp [csvRowOf, JVal.getDE]⟩
  | b x => exact Or.inl ⟨"AttributeError", by simp [csvRowOf, JVal.getDE]⟩
  | s x => exact Or.inl ⟨"AttributeError", by simp [csvRowOf, JVal.getDE]⟩
  | i n => exact Or.inl ⟨"AttributeError", by simp [csvRowOf, JVal.getDE]⟩
  | arr xs => exact Or.inl ⟨"AttributeError", by simp [csvRowOf, JVal.getDE]⟩

/-- Every outcome of the row collection loop: an exception, or a list of
data rows (type column `AttributeUsage`, keys exactly the field names). -/
theorem csvCollect_shape (st : Store) (su p c : JVal) (elements : List JVal) :
    (∃ e, (csvCollect st su p c elements).res = Except.error e) ∨
    (∃ rows, (csvCollect st su p c elements).res = Except.ok rows ∧
      ∀ row ∈ rows, lookupKey row (JVal.s "type") = some (JVal.s "AttributeUsage") ∧
        row.map Prod.fst = csvFields) := by
  induction elements with
  | nil => exact Or.inr ⟨[], rfl, by simp⟩
  | cons item0 rest ih =>
    by_cases h1 : pyTruthy (ensure_dict item0) = false
    · have heq : (csvCollect st su p c (item0 :: rest)).res =
          (csvCollect st su p c rest).res := by
        simp [csvCollect, h1, bind_eq_bind]
      rw [heq]; exact ih
    · obtain ⟨fs, hfs⟩ : ∃ fs, ensure_dict item0 = JVal.obj fs := by
        rcases ensure_dict_shape item0 with hs | ⟨fs, hs⟩
        · rw [hs] at h1; simp at h1
        · exact ⟨fs, hs⟩
      have hne : fs ≠ [] := by
        rw [hfs] at h1
        simpa using h1
      by_cases h2 : (lookupKey fs (JVal.s "@type")).getD JVal.null = JVal.s "AttributeUsage"
      · obtain ⟨ol, ow, how⟩ := ownerFetch_ok st (queryUrl3 su p c)
          ((lookupKey fs (JVal.s "owner")).getD JVal.null)
        obtain ⟨gl, gv, hgff⟩ := gff_total st su p c ((lookupKey fs (JVal.s "@id")).getD JVal.null)
        rcases csvRowOf_shape fs (if pyTruthy gv then gv else JVal.obj []) ow h2 with
          ⟨e, herr⟩ | ⟨row, hok, hp1, hp2⟩
        · refine Or.inl ⟨e, ?_⟩
          simp [csvCollect, h1, hfs, hne, JVal.getE, bind_eq_bind, h2, how, hgff, herr]
        · cases hcc : csvCollect st su p c rest with
          | mk cl cr =>
            rcases ih with ⟨e2, he2⟩ | ⟨rows, hrows, hprop⟩
            · rw [hcc] at he2
              simp only at he2
              refine Or.inl ⟨e2, ?_⟩
              simp [csvCollect, h1, hfs, hne, JVal.getE, bind_eq_bind, h2, how, hgff, hok, hcc,
                he2]
            · rw [hcc] at hrows
              simp only at hrows
              refine Or.inr ⟨row :: rows, ?_, ?_⟩
              · simp [csvCollect, h1, hfs, hne, JVal.getE, bind_eq_bind, h2, how, hgff, hok, hcc,
                  hrows]
              · intro r hr
                rcases List.mem_cons.mp hr with hr | hr
                · subst hr; exact ⟨hp1, hp2⟩
                · exact hprop r hr
      · have heq : (csvCollect st su p c (item0 :: rest)).res =
            (csvCollect st su p c rest).res := by
          simp [csvCollect, h1, hfs, JVal.getE, bind_eq_bind, h2]
        rw [heq]; exact ih

/-- Claim C10: the tabular output of `outputAttributesToCSV` contains only
data rows and no header row naming the columns: every produced CSV text
is `renderRows` of collected rows — `writerows` with no `writeheader` —
where every row is a data row whose `type` column is `AttributeUsage`
(a header row would carry the value `type` there), and the empty
collection produces the empty string, not a field-name line. -/
theorem claim_C10_no_header_row :
    (∀ (st : Store) (su p c : JVal) (elements : List JVal),
      ∃ r, (outputAttributesToCSV st su p c elements).res = Except.ok r ∧
        (r = Resp.failure ∨ ∃ rows, r = Resp.csv (renderRows rows) ∧
          ∀ row ∈ rows, lookupKey row (JVal.s "type") = some (JVal.s "AttributeUsage") ∧
            row.map Prod.fst = csvFields)) ∧
    (∀ (st : Store) (su p c : JVal),
      (outputAttributesToCSV st su p c []).res = Except.ok (Resp.csv "")) := by
  constructor
  · intro st su p c elements
    unfold outputAttributesToCSV
    cases hcc : csvCollect st su p c elements with
    | mk cl cr =>
      rcases csvCollect_shape st su p c elements with ⟨e, he⟩ | ⟨rows, hrows, hprop⟩
      · rw [hcc] at he
        simp only at he
        refine ⟨Resp.failure, ?_, Or.inl rfl⟩
        simp [mCatch, bind_eq_bind, hcc, he]
      · rw [hcc] at hrows
        simp only at hrows
        refine ⟨Resp.csv (renderRows rows), ?_, Or.inr ⟨rows, rfl, hprop⟩⟩
        simp [mCatch, bind_eq_bind, hcc, hrows]
  · intro st su p c
    rfl

/-- Claim C10 witness: on the demo store, the element list `[e9]` (one
`AttributeUsage`) yields a CSV whose rows are all data rows. -/
theorem claim_C10_witness :
    ∃ r, (outputAttributesToCSV demoStore (JVal.s "S") (JVal.s "p") (JVal.s "c")
        [JVal.obj [(JVal.s "@type", JVal.s "AttributeUsage"), (JVal.s "@id", JVal.s "e9"),
          (JVal.s "owner", JVal.obj [(JVal.s "@id", JVal.s "o1")]),
          (JVal.s "name", JVal.s "attr9")]]).res = Except.ok r ∧
      (r = Resp.failure ∨ ∃ rows, r = Resp.csv (renderRows rows) ∧
        ∀ row ∈ rows, lookupKey row (JVal.s "type") = some (JVal.s "AttributeUsage") ∧
          row.map Prod.fst = csvFields) :=
  claim_C10_no_header_row.1 demoStore (JVal.s "S") (JVal.s "p") (JVal.s "c")
    [JVal.obj [(JVal.s "@type", JVal.s "AttributeUsage"), (JVal.s "@id", JVal.s "e9"),
      (JVal.s "owner", JVal.obj [(JVal.s "@id", JVal.s "o1")]),
      (JVal.s "name", JVal.s "attr9")]]

end SysMLv2
